import Mathlib

/-!
# json-http: typed dispatch, bounded retry and failure classification

A shallow embedding of `server.go` (package `jsonhttp`).

* Go values that travel through `panic`, `recover` and the `error` interface are the
  inductive type `GoValue`; a Go function that may panic returns `Except GoValue α`,
  where `Except.error v` stands for `panic(v)`.
* The transport (`http.ResponseWriter`) is a handle; every method call made on a handle
  that the transport accepts is appended to the call log `World.calls`, in program
  order.  `WriteHeader` panics for a status code outside 100..999, as the writers of
  `net/http` do, and such a call leaves no entry.
* A dispatch returns how it ended (normally, or with a panic that reaches `net/http`)
  together with the world afterwards.
* `World.invoked` counts the handler invocations made so far.  A handler receives that
  count, so its outcome may differ from one attempt to the next (the database it talks
  to is not part of the program).
* Results of external collaborators (`io.ReadAll`, `ParseMultipartForm`, `json.Unmarshal`,
  `params.Unpack`, `json.Marshal` on a payload, the error results of `Write` and `Flush`)
  are inputs of the model.
-/

namespace JsonHttp

/-! ## Go values, transport and world -/

/-- Dynamic Go values reaching `panic`, `recover` and the `error` interface. -/
inductive GoValue where
  /-- The nil interface value. -/
  | nil
  /-- A non-nil `*pq.Error`, with its `Code` field. -/
  | pqError (Code : String)
  /-- The nil pointer of type `*pq.Error`, held in a non-nil interface. -/
  | pqErrorNil
  /-- An `ErrorWithCode` struct value (server.go:260). -/
  | errorWithCode (HTTPResponseStatusCode : Int) (OriginError : GoValue)
  /-- An error made by `errors.New`. -/
  | errorString (msg : String)
  /-- An error made by `fmt.Errorf("<msg>: %w", inner)`. -/
  | wrapError (msg : String) (inner : GoValue)
  /-- A Go `string`. -/
  | string (s : String)
  /-- A value of any other dynamic type, named by a description. -/
  | other (desc : String)
  deriving DecidableEq, Repr

/-- Equality of outcomes is decidable when equality of their parts is. -/
instance decEqExcept {ε α : Type} [DecidableEq ε] [DecidableEq α] :
    DecidableEq (Except ε α)
  | .ok a, .ok b =>
    if h : a = b then isTrue (by rw [h]) else isFalse (fun e => h (by injection e))
  | .error a, .error b =>
    if h : a = b then isTrue (by rw [h]) else isFalse (fun e => h (by injection e))
  | .ok _, .error _ => isFalse (fun e => by cases e)
  | .error _, .ok _ => isFalse (fun e => by cases e)

/-- Identity of an `http.ResponseWriter` interface value. -/
structure ResponseWriter where
  id : Nat
  deriving DecidableEq, Repr, Inhabited

/-- Method calls this package makes, or delegates, on a response writer. -/
inductive Op where
  /-- The call `w.Header().Set(key, value)`. -/
  | setHeader (key value : String)
  /-- The call `w.WriteHeader(statusCode)`. -/
  | writeHeader (statusCode : Int)
  /-- The call `w.Write(data)`. -/
  | write (data : String)
  /-- The call `http.NewResponseController(w).Flush()`. -/
  | flush
  /-- The call `http.ServeContent(w, r, name, modtime, content)`. -/
  | serveContent (name : String) (modtime : Nat) (content : String)
  deriving DecidableEq, Repr

/-- One recorded call: the writer it was made on and the operation. -/
structure Call where
  w : ResponseWriter
  op : Op
  deriving DecidableEq, Repr

/-- Levels of the file-log package used by this program. -/
inductive LogLevel where
  | INFO
  | WARN
  | ERROR
  deriving DecidableEq, Repr

/-- One line handed to `LOGGER.Println`: the level and the logged value (the stack text
that `debug.Stack()` adds is not recorded). -/
structure LogLine where
  level : LogLevel
  value : GoValue
  deriving DecidableEq, Repr

/-- Everything one dispatch can change. -/
structure World where
  /-- Calls made on response writers, oldest first. -/
  calls : List Call
  /-- Lines logged, oldest first. -/
  logs : List LogLine
  /-- Number of handler invocations made so far. -/
  invoked : Nat
  deriving DecidableEq, Repr

/-- Process-wide configuration and the error results of the transport. -/
structure Env where
  /-- The global `MAX_TRY` (server.go:21), a Go `int`. -/
  MAX_TRY : Int
  /-- Error returned by `w.Write`, given the calls made before it. -/
  writeErr : List Call → GoValue
  /-- Error returned by `Flush`, given the calls made before it. -/
  flushErr : List Call → GoValue

/-- Record a call on writer `w`. -/
def World.call (s : World) (w : ResponseWriter) (op : Op) : World :=
  { s with calls := s.calls ++ [⟨w, op⟩] }

/-- Go `Log(v ...any)` (server.go:51): `LOGGER.Println(v...)`. -/
def Log (s : World) (level : LogLevel) (v : GoValue) : World :=
  { s with logs := s.logs ++ [⟨level, v⟩] }

/-- The call `w.WriteHeader(code)` on a writer of `net/http`: `checkWriteHeaderCode`
panics with a string for a code outside 100..999, before the call has any effect;
otherwise the call is recorded. -/
def World.WriteHeader (s : World) (w : ResponseWriter) (code : Int) :
    Except GoValue Unit × World :=
  if code < 100 ∨ code > 999 then
    (.error (.string ("invalid WriteHeader code " ++ toString code)), s)
  else
    (.ok (), s.call w (.writeHeader code))

/-- Panic value of calling a nil func or dereferencing a nil pointer. -/
def nilDereference : GoValue :=
  .other "runtime error: invalid memory address or nil pointer dereference"

/-- Go `http.StatusInternalServerError`. -/
def StatusInternalServerError : Int := 500

/-- Go `http.StatusForbidden`. -/
def StatusForbidden : Int := 403

/-- Go `http.StatusBadRequest`. -/
def StatusBadRequest : Int := 400

/-- Value that `recover()` yields in a deferred function: nil after a normal return, the
panic value after a panic.  The repository needs Go 1.22 (its tests range over an
integer), where `panic(nil)` is recovered as a `*runtime.PanicNilError`. -/
def recoverOf {α : Type} : Except GoValue α → GoValue
  | .ok _ => .nil
  | .error .nil => .other "*runtime.PanicNilError"
  | .error v => v

/-! ## Failure classifier (server.go:133-151) -/

/-- Go `doRecover` (server.go:133): how it ends (the value of `retry`, or a panic of its
own) and the world afterwards.  It panics when `WriteHeader` rejects the status code,
and when `recovered` is a nil `*pq.Error`, whose field `Code` cannot be read. -/
def doRecover (recovered : GoValue) (w : ResponseWriter) (s : World) :
    Except GoValue Bool × World :=
  match recovered with
  | .nil => (.ok false, s)
  | .pqErrorNil => (.error nilDereference, s)
  | .pqError code =>
    if code = "40001" ∨ code = "55P03" then
      (.ok true, Log s .WARN recovered)
    else
      match s.WriteHeader w StatusInternalServerError with
      | (.error p, s) => (.error p, s)
      | (.ok _, s) => (.ok false, Log s .ERROR recovered)
  | .errorWithCode code _ =>
    match s.WriteHeader w code with
    | (.error p, s) => (.error p, s)
    | (.ok _, s) => (.ok false, Log s .WARN recovered)
  | _ =>
    match s.WriteHeader w StatusInternalServerError with
    | (.error p, s) => (.error p, s)
    | (.ok _, s) => (.ok false, Log s .ERROR recovered)

/-! ## Explicit failures (server.go:249-257, 323-334) -/

/-- Go `panicWithHTTPCode` (server.go:249). -/
def panicWithHTTPCode {α : Type} (err : GoValue) (httpResponseStatusCode : Int) :
    Except GoValue α :=
  .error (.errorWithCode httpResponseStatusCode err)

/-- Go `MustWithHTTPCode` (server.go:253). -/
def MustWithHTTPCode (err : GoValue) (httpResponseStatusCode : Int) : Except GoValue Unit :=
  if err ≠ .nil then panicWithHTTPCode err httpResponseStatusCode else .ok ()

/-- Go `Must` (server.go:45). -/
def Must (err : GoValue) : Except GoValue Unit :=
  if err ≠ .nil then .error err else .ok ()

/-- Go `FailWithHTTPCode` (server.go:323); the body passes `http.StatusForbidden`. -/
def FailWithHTTPCode {α : Type} (err : GoValue) (_httpStatusCode : Int) : Except GoValue α :=
  panicWithHTTPCode err StatusForbidden

/-- Go `Forbidden` (server.go:328). -/
def Forbidden {α : Type} (err : GoValue) : Except GoValue α :=
  panicWithHTTPCode err StatusForbidden

/-- Go `BadRequest` (server.go:332). -/
def BadRequest {α : Type} (err : GoValue) : Except GoValue α :=
  panicWithHTTPCode err StatusBadRequest

/-! ## Inbound request and the request variants (server.go:153-247) -/

/-- One uploaded file of a parsed multipart form. -/
structure FileHeader where
  Filename : String
  content : String
  deriving DecidableEq, Repr

/-- Go `multipart.Form`: field values and uploaded files, by field name. -/
structure Form where
  Value : List (String × List String)
  File : List (String × List FileHeader)
  deriving DecidableEq, Repr, Inhabited

/-- The parts of `*http.Request` this package reads, with the results of the external
calls made on it. -/
structure HttpRequest where
  /-- Field `RemoteAddr`. -/
  RemoteAddr : String
  /-- Bytes that `io.ReadAll(r.Body)` returns. -/
  Body : String
  /-- Error that `io.ReadAll(r.Body)` returns. -/
  bodyErr : GoValue
  /-- Error that `r.ParseMultipartForm` returns. -/
  formErr : GoValue
  /-- Field `MultipartForm` after `ParseMultipartForm`. -/
  MultipartForm : Form
  /-- Raw query of the URL, read by `params.Unpack`. -/
  RawQuery : String
  deriving DecidableEq, Repr

instance : Inhabited HttpRequest := ⟨⟨"", "", .nil, .nil, default, ""⟩⟩

/-- Go `strings.Split(s, sep)` for a one-character separator, on the characters of `s`:
`cur` holds the piece being read, reversed. -/
def splitChars (sep : Char) : List Char → List Char → List String
  | [], cur => [String.mk cur.reverse]
  | c :: rest, cur =>
    if c = sep then String.mk cur.reverse :: splitChars sep rest []
    else splitChars sep rest (c :: cur)

/-- Go `strings.Split(s, sep)` for a one-character separator. -/
def stringsSplit (s : String) (sep : Char) : List String :=
  splitChars sep s.data []

/-- Go struct `commonRequest` (server.go:153); the zero value holds nil handles, here
the default elements. -/
structure commonRequest where
  w : ResponseWriter
  r : HttpRequest
  ip : String
  deriving DecidableEq, Repr, Inhabited

/-- Go `commonRequest.Req` (server.go:159). -/
def commonRequest.Req (r : commonRequest) : HttpRequest := r.r

/-- Go `commonRequest.Res` (server.go:163). -/
def commonRequest.Res (r : commonRequest) : ResponseWriter := r.w

/-- Go `commonRequest.IP` (server.go:167). -/
def commonRequest.IP (r : commonRequest) : String := r.ip

/-- Go `commonRequest.From` (server.go:171). -/
def commonRequest.From (req : commonRequest) (w : ResponseWriter) (r : HttpRequest) :
    commonRequest :=
  let req := { req with w := w, r := r }
  if r.RemoteAddr ≠ "" then
    { req with ip := (stringsSplit r.RemoteAddr ':').headD "" }
  else req

/-- Go struct `Request` (server.go:180).  The closure stored in `Unmarshal` is kept as
the variable it captures: `data` is `none` while `Unmarshal` is the nil func. -/
structure Request where
  toCommon : commonRequest
  data : Option String
  deriving DecidableEq, Repr, Inhabited

/-- Go `Request.from` (server.go:185). -/
def Request.from' (req : Request) (w : ResponseWriter) (r : HttpRequest) :
    Request × GoValue :=
  let req := { req with toCommon := req.toCommon.From w r }
  let data := r.Body
  let err := r.bodyErr
  if err ≠ .nil then
    (req, .wrapError "read request body failed" err)
  else
    ({ req with data := some data }, .nil)

/-- The closure `req.Unmarshal` of a `Request` (server.go:192), applied to target `v`;
`jsonUnmarshal data v` is `json.Unmarshal(data, &v)`: the target afterwards and the
error. -/
def Request.Unmarshal {V : Type} (req : Request)
    (jsonUnmarshal : String → V → V × GoValue) (v : V) : Except GoValue V :=
  match req.data with
  | none => .error nilDereference
  | some data =>
    let (v, err) := jsonUnmarshal data v
    (MustWithHTTPCode err StatusBadRequest).map (fun _ => v)

/-- Go struct `RequestGet` (server.go:198); `captured` is the request the `Unmarshal`
closure captures, `none` while `Unmarshal` is the nil func. -/
structure RequestGet where
  toCommon : commonRequest
  captured : Option HttpRequest
  deriving DecidableEq, Repr, Inhabited

/-- Go `RequestGet.from` (server.go:203). -/
def RequestGet.from' (req : RequestGet) (w : ResponseWriter) (r : HttpRequest) :
    RequestGet × GoValue :=
  let req := { req with toCommon := req.toCommon.From w r }
  ({ req with captured := some r }, .nil)

/-- The closure `req.Unmarshal` of a `RequestGet` (server.go:205); `paramsUnpack r v`
is `params.Unpack(r, &v)`. -/
def RequestGet.Unmarshal {V : Type} (req : RequestGet)
    (paramsUnpack : HttpRequest → V → V × GoValue) (v : V) : Except GoValue V :=
  match req.captured with
  | none => .error nilDereference
  | some r =>
    let (v, err) := paramsUnpack r v
    (MustWithHTTPCode err StatusBadRequest).map (fun _ => v)

/-- Go `DEFAULT_MAX_MEMORY` (server.go:24). -/
def DEFAULT_MAX_MEMORY : Nat := 32 <<< 20

/-- Go struct `RequestForm` (server.go:211); `Data` is a pointer, nil in the zero
value. -/
structure RequestForm where
  toCommon : commonRequest
  Data : Option Form
  deriving DecidableEq, Repr, Inhabited

/-- Go `RequestForm.from` (server.go:216). -/
def RequestForm.from' (req : RequestForm) (w : ResponseWriter) (r : HttpRequest) :
    RequestForm × GoValue :=
  let req := { req with toCommon := req.toCommon.From w r }
  let err := r.formErr
  if err ≠ .nil then
    (req, .wrapError "parse request multipart form failed" err)
  else
    ({ req with Data := some r.MultipartForm }, .nil)

/-- Go constraint `request` with `requestPTR` (server.go:55-69): the method set every
request variant offers, its zero value and the `from` constructor of its pointer. -/
class request (R : Type) where
  /-- The zero value declared by `var req R`. -/
  zero : R
  /-- Method `from` of `*R`: the request afterwards and the error. -/
  from' : R → ResponseWriter → HttpRequest → R × GoValue
  /-- Method `Req`. -/
  Req : R → HttpRequest
  /-- Method `Res`. -/
  Res : R → ResponseWriter
  /-- Method `IP`. -/
  IP : R → String

instance : request Request where
  zero := default
  from' := Request.from'
  Req r := r.toCommon.Req
  Res r := r.toCommon.Res
  IP r := r.toCommon.IP

instance : request RequestGet where
  zero := default
  from' := RequestGet.from'
  Req r := r.toCommon.Req
  Res r := r.toCommon.Res
  IP r := r.toCommon.IP

instance : request RequestForm where
  zero := default
  from' := RequestForm.from'
  Req r := r.toCommon.Req
  Res r := r.toCommon.Res
  IP r := r.toCommon.IP

/-! ## Response variants and the encoder (server.go:269-321) -/

/-- A Go value placed in `Response.Data` (an `interface{}`), as `json.Marshal` sees it.
The program does nothing else with the value, so the model keeps the outcome of
`json.Marshal` on it: a panic raised by a `MarshalJSON` method (which `encoding/json`
lets through), or the bytes and the error returned. -/
structure Payload where
  marshal : Except GoValue (String × GoValue)

/-- The nil interface, the zero value of `Data`: it serializes to `null`. -/
def Payload.null : Payload := ⟨.ok ("null", .nil)⟩

/-- The double quote character. -/
def dquote : Char := Char.ofNat 34

/-- The backslash character. -/
def backslash : Char := Char.ofNat 92

/-- Escape of one character inside a JSON string, as `encoding/json` of Go 1.22 writes
it with HTML escaping on (the default of `json.Marshal`). -/
def jsonEscapeChar (c : Char) : List Char :=
  if c = dquote ∨ c = backslash then [backslash, c]
  else if c = Char.ofNat 8 then [backslash, 'b']
  else if c = Char.ofNat 12 then [backslash, 'f']
  else if c = Char.ofNat 10 then [backslash, 'n']
  else if c = Char.ofNat 13 then [backslash, 'r']
  else if c = Char.ofNat 9 then [backslash, 't']
  else if c.toNat < 32 ∨ c = '<' ∨ c = '>' ∨ c = '&' then
    [backslash, 'u', '0', '0', Nat.digitChar (c.toNat / 16), Nat.digitChar (c.toNat % 16)]
  else if c = Char.ofNat 8232 then [backslash, 'u', '2', '0', '2', '8']
  else if c = Char.ofNat 8233 then [backslash, 'u', '2', '0', '2', '9']
  else [c]

/-- JSON text of a Go string of valid UTF-8 under `json.Marshal`. -/
def jsonString (s : String) : String :=
  String.mk ([dquote] ++ s.data.flatMap jsonEscapeChar ++ [dquote])

/-- Go struct `Response` (server.go:269), with JSON names `success`, `code`, `msg` and
`data`; `Msg` is a string of valid UTF-8. -/
structure Response where
  Success : Bool
  Code : Int
  Msg : String
  Data : Payload

/-- The JSON object of a `Response` around the serialization `data` of its payload: the
four members in declaration order under the names of the struct tags. -/
def responseObject (res : Response) (data : String) : String :=
  "\x7b\"success\":" ++ (if res.Success then "true" else "false")
    ++ ",\"code\":" ++ toString res.Code
    ++ ",\"msg\":" ++ jsonString res.Msg
    ++ ",\"data\":" ++ data ++ "\x7d"

/-- Go `json.Marshal(res)` for a `Response`: a panic of the payload's serialization
goes through, its error is returned without bytes, and otherwise the bytes are the
object around the payload's bytes. -/
def jsonMarshalResponse (res : Response) : Except GoValue (String × GoValue) :=
  match res.Data.marshal with
  | .error p => .error p
  | .ok (data, err) =>
    if err ≠ .nil then .ok ("", err) else .ok (responseObject res data, .nil)

/-- Go `fmt.Fprint(w, text)` for one string operand: a single `w.Write`; the error is
the one the transport reports. -/
def Fprint (env : Env) (w : ResponseWriter) (text : String) (s : World) : World × GoValue :=
  (s.call w (.write text), env.writeErr s.calls)

/-- Go `Response.do` (server.go:276): a panic of `json.Marshal`, or the error returned,
and the world afterwards. -/
def Response.do' (env : Env) (res : Response) (w : ResponseWriter) (_r : HttpRequest)
    (s : World) : Except GoValue GoValue × World :=
  let s := s.call w (.setHeader "Content-Type" "application/json")
  match jsonMarshalResponse res with
  | .error p => (.error p, s)
  | .ok (resJSONByte, err) =>
    if err ≠ .nil then
      (.ok (.wrapError "json marshal response failed" err), s)
    else
      let (s, err) := Fprint env w resJSONByte s
      if err ≠ .nil then
        (.ok (.wrapError "write to http.ResponseWriter failed" err), s)
      else
        (.ok .nil, s)

/-- Go struct `ResponseFile` (server.go:292); `Content` is the byte content of the
seekable stream. -/
structure ResponseFile where
  FileName : String
  Content : String
  Modtime : Nat
  deriving DecidableEq, Repr

/-- Go `ResponseFile.do` (server.go:298); the content serving is delegated to
`http.ServeContent` and recorded as one call. -/
def ResponseFile.do' (_env : Env) (res : ResponseFile) (w : ResponseWriter)
    (_r : HttpRequest) (s : World) : Except GoValue GoValue × World :=
  let s := s.call w (.setHeader "Content-Disposition" ("attachment; filename=" ++ res.FileName))
  let s := s.call w (.serveContent res.FileName res.Modtime res.Content)
  (.ok .nil, s)

/-- Go constraint `response` (server.go:71): the method `do` of a response variant. -/
class response (RES : Type) where
  /-- Method `do`: a panic or the error returned, and the world afterwards. -/
  do' : Env → RES → ResponseWriter → HttpRequest → World → Except GoValue GoValue × World

instance : response Response where
  do' := Response.do'

instance : response ResponseFile where
  do' := ResponseFile.do'

/-- Go `Success` (server.go:305); `Code` and `Msg` keep their zero values. -/
def Success (data : Payload) : Response :=
  { Success := true, Code := 0, Msg := "", Data := data }

/-- Go interface `FailCode` (server.go:309), as the pair of its method results. -/
structure FailCode where
  Int : Int
  Message : String

/-- Go `Fail` (server.go:315); `Data` keeps its zero value. -/
def Fail (code : FailCode) : Response :=
  { Success := false, Code := code.Int, Msg := code.Message, Data := .null }

/-- Go `FailWithMsg` (server.go:319). -/
def FailWithMsg (code : FailCode) (msg : String) : Response :=
  { Success := false, Code := code.Int, Msg := msg, Data := .null }

/-! ## Dispatch and retry (server.go:89-131) -/

/-- A handler `func(req R) RES`: its outcome for request `req` when `n` invocations
were made before it; `Except.error v` is a panic with `v`. -/
abbrev Handler (R RES : Type) := R → Nat → Except GoValue RES

/-- Go `handle` (server.go:123): one handler invocation inside the failure boundary.
The deferred function runs `doRecover(recover(), r.Res())` after a normal return, after
a panic of the handler and after a panic of `res.do`; its result is `retry`, and a
panic of `doRecover` leaves `handle` as a panic. -/
def handle {R RES : Type} [request R] [response RES] (env : Env)
    (handler : Handler R RES) (r : R) (s : World) : Except GoValue Bool × World :=
  let s1 := { s with invoked := s.invoked + 1 }
  match handler r s.invoked with
  | .ok res =>
    match response.do' env res (request.Res r) (request.Req r) s1 with
    | (.ok err, s2) =>
      let s3 := if err ≠ .nil then Log s2 .ERROR err else s2
      doRecover (recoverOf (Except.ok () : Except GoValue Unit)) (request.Res r) s3
    | (.error p, s2) =>
      doRecover (recoverOf (Except.error p : Except GoValue Unit)) (request.Res r) s2
  | .error v =>
    doRecover (recoverOf (Except.error v : Except GoValue Unit)) (request.Res r) s1

/-- The body returned to the client when every attempt asked for a retry
(server.go:103). -/
def busyBody : String :=
  "\x7b\"ok\":false,\"msg\":\"Server is busy, please try later!\"\x7d"

/-- The loop `for try := MAX_TRY; try > 0; try--` of `wrapHandler` (server.go:98) with
the statement after it, for `try` remaining iterations; a panic of `handle` ends it. -/
def retryLoop {R RES : Type} [request R] [response RES] (env : Env)
    (handler : Handler R RES) (w : ResponseWriter) (req : R) :
    Nat → World → Except GoValue Unit × World
  | 0, s => (.ok (), (Fprint env w busyBody s).1)
  | try' + 1, s =>
    match handle env handler req s with
    | (.error p, s) => (.error p, s)
    | (.ok retry, s) =>
      if !retry then (.ok (), s) else retryLoop env handler w req try' s

/-- Go `wrapHandler` (server.go:89): the returned `http.HandlerFunc`, run on `w`, `r`:
how it ends (it returns, or a panic leaves it) and the world afterwards. -/
def wrapHandler {R RES : Type} [request R] [response RES] (env : Env)
    (handler : Handler R RES) (w : ResponseWriter) (r : HttpRequest) (s : World) :
    Except GoValue Unit × World :=
  let (req, err) := request.from' (request.zero : R) w r
  if err ≠ .nil then
    match s.WriteHeader w StatusInternalServerError with
    | (.error p, s) => (.error p, s)
    | (.ok _, s) => (.ok (), Log s .ERROR (.wrapError "parse request failed" err))
  else
    retryLoop env handler w req env.MAX_TRY.toNat s

/-! ## Streaming path (server.go:107-114, 226-247) -/

/-- Go struct `RequestSSE` (server.go:226).  The closures `Unmarshal` and `Write` are
kept as the variables they capture, `none` while the closure is the nil func. -/
structure RequestSSE where
  toCommon : commonRequest
  capturedR : Option HttpRequest
  capturedW : Option ResponseWriter
  deriving DecidableEq, Repr, Inhabited

/-- Go `RequestSSE.from` (server.go:232). -/
def RequestSSE.from' (req : RequestSSE) (w : ResponseWriter) (r : HttpRequest)
    (s : World) : RequestSSE × World :=
  let s := s.call w (.setHeader "Content-Type" "text/event-stream")
  let s := s.call w (.setHeader "Cache-Control" "no-cache")
  let s := s.call w (.setHeader "Connection" "keep-alive")
  let req := { req with toCommon := req.toCommon.From w r }
  let req := { req with capturedR := some r }
  let req := { req with capturedW := some w }
  (req, s)

/-- The closure `req.Unmarshal` of a `RequestSSE` (server.go:238). -/
def RequestSSE.Unmarshal {V : Type} (req : RequestSSE)
    (paramsUnpack : HttpRequest → V → V × GoValue) (v : V) : Except GoValue V :=
  match req.capturedR with
  | none => .error nilDereference
  | some r =>
    let (v, err) := paramsUnpack r v
    (MustWithHTTPCode err StatusBadRequest).map (fun _ => v)

/-- The closure `req.Write` of a `RequestSSE` (server.go:241): write, `Must`, flush,
`Must`. -/
def RequestSSE.Write (env : Env) (req : RequestSSE) (v : String) (s : World) :
    Except GoValue Unit × World :=
  match req.capturedW with
  | none => (.error nilDereference, s)
  | some w =>
    let err := env.writeErr s.calls
    let s := s.call w (.write v)
    match Must err with
    | .error e => (.error e, s)
    | .ok _ =>
      let ferr := env.flushErr s.calls
      let s := s.call w .flush
      match Must ferr with
      | .error e => (.error e, s)
      | .ok _ => (.ok (), s)

/-- Behaviour of a streaming handler `func(req RequestSSE)`, as the sequence of its
uses of `req`: it returns, panics, writes a chunk and goes on, or decodes the query
into a target and goes on with the decoded value. -/
inductive SSEHandler (V : Type) where
  /-- The handler returns. -/
  | ret
  /-- The handler panics with `v`. -/
  | panic (v : GoValue)
  /-- The handler calls `req.Write(chunk)`, then goes on. -/
  | Write (chunk : String) (next : SSEHandler V)
  /-- The handler calls `req.Unmarshal(&v)`, then goes on with the target. -/
  | Unmarshal (v : V) (next : V → SSEHandler V)

/-- Run a streaming handler against `req`: a panic of `req.Write` or `req.Unmarshal`
ends it. -/
def SSEHandler.run {V : Type} (env : Env) (paramsUnpack : HttpRequest → V → V × GoValue)
    (req : RequestSSE) : SSEHandler V → World → Except GoValue Unit × World
  | .ret, s => (.ok (), s)
  | .panic v, s => (.error v, s)
  | .Write chunk next, s =>
    match req.Write env chunk s with
    | (.ok _, s) => next.run env paramsUnpack req s
    | (.error e, s) => (.error e, s)
  | .Unmarshal v next, s =>
    match req.Unmarshal paramsUnpack v with
    | .ok v => (next v).run env paramsUnpack req s
    | .error e => (.error e, s)

/-- Go `wrapHandlerSSE` (server.go:107): the returned `http.HandlerFunc`, run on `w`,
`r`.  The deferred `doRecover(recover(), w)` runs last; its result is dropped, and a
panic of its own leaves the function. -/
def wrapHandlerSSE {V : Type} (env : Env) (paramsUnpack : HttpRequest → V → V × GoValue)
    (handler : RequestSSE → SSEHandler V) (w : ResponseWriter) (r : HttpRequest)
    (s : World) : Except GoValue Unit × World :=
  let (req, s) := RequestSSE.from' default w r s
  let s := { s with invoked := s.invoked + 1 }
  let (out, s) := (handler req).run env paramsUnpack req s
  match doRecover (recoverOf out) w s with
  | (.error p, s) => (.error p, s)
  | (.ok _, s) => (.ok (), s)

/-! ## Observations on the call log -/

/-- Whether a call is one of the response writes: a body write, a status write or the
delegated content serving. -/
def Op.isResponseWrite : Op → Bool
  | .write _ => true
  | .writeHeader _ => true
  | .serveContent _ _ _ => true
  | _ => false

/-- Number of response writes among the calls. -/
def responseWrites (calls : List Call) : Nat :=
  (calls.filter (fun c => c.op.isResponseWrite)).length

/-- Status codes passed to `WriteHeader`, in order. -/
def writeHeaderCodes : List Call → List Int
  | [] => []
  | ⟨_, .writeHeader code⟩ :: rest => code :: writeHeaderCodes rest
  | _ :: rest => writeHeaderCodes rest

/-- Body chunks passed to `Write`, in order. -/
def writtenChunks : List Call → List String
  | [] => []
  | ⟨_, .write data⟩ :: rest => data :: writtenChunks rest
  | _ :: rest => writtenChunks rest

/-- Bytes received by the transport: the written chunks, concatenated. -/
def bodyBytes (calls : List Call) : String :=
  String.join (writtenChunks calls)

/-- Whether `code` names a transient conflict: serialization failure or lock not
available. -/
def isTransientCode (code : String) : Bool :=
  code = "40001" || code = "55P03"

/-- Chunks a streaming handler passes to `req.Write`, in order, when every write and
flush succeeds: it stops at a return or at a panic, also one raised by
`req.Unmarshal`. -/
def SSEHandler.passes {V : Type} (paramsUnpack : HttpRequest → V → V × GoValue)
    (req : RequestSSE) : SSEHandler V → List String
  | .ret => []
  | .panic _ => []
  | .Write chunk next => chunk :: next.passes paramsUnpack req
  | .Unmarshal v next =>
    match req.Unmarshal paramsUnpack v with
    | .ok v => (next v).passes paramsUnpack req
    | .error _ => []

/-- How a streaming handler ends when every write and flush succeeds: it returns, or
panics with a value. -/
def SSEHandler.outcome {V : Type} (paramsUnpack : HttpRequest → V → V × GoValue)
    (req : RequestSSE) : SSEHandler V → Except GoValue Unit
  | .ret => .ok ()
  | .panic v => .error v
  | .Write _ next => next.outcome paramsUnpack req
  | .Unmarshal v next =>
    match req.Unmarshal paramsUnpack v with
    | .ok v => (next v).outcome paramsUnpack req
    | .error e => .error e

/-- The handler that writes the chunks in order and then goes on as `ending`. -/
def writeAll {V : Type} (chunks : List String) (ending : SSEHandler V) : SSEHandler V :=
  chunks.foldr (fun chunk next => .Write chunk next) ending

/-- The three header calls of `RequestSSE.from`. -/
def sseHeaders (w : ResponseWriter) : List Call :=
  [⟨w, .setHeader "Content-Type" "text/event-stream"⟩,
   ⟨w, .setHeader "Cache-Control" "no-cache"⟩,
   ⟨w, .setHeader "Connection" "keep-alive"⟩]

/-- One write followed by one flush for each chunk, in order. -/
def chunkCalls (w : ResponseWriter) (chunks : List String) : List Call :=
  chunks.flatMap (fun chunk => [⟨w, .write chunk⟩, ⟨w, .flush⟩])

/-! ## The classifier as the specification words it -/

/-- Outcomes of the failure classifier named by the specification (section 4.3). -/
inductive Outcome where
  /-- Nil or absent failure: the attempt is successful. -/
  | noFailure
  /-- Transient conflict: run the handler again, write nothing. -/
  | retry
  /-- Terminal failure: write this status code. -/
  | terminal (statusCode : Int)
  deriving DecidableEq, Repr

/-- The classifier following the specification's words: nil is no failure; a storage
error whose code names a transient conflict is a retry; an explicit failure with a
status code is terminal with that code; anything else is terminal with the generic
server-error code. -/
def classifySpec : GoValue → Outcome
  | .nil => .noFailure
  | .pqError code => if isTransientCode code then .retry else .terminal 500
  | .errorWithCode statusCode _ => .terminal statusCode
  | _ => .terminal 500

/-- Whether `doRecover` runs to its end on a recovered value: not on a nil `*pq.Error`,
and not on an `ErrorWithCode` whose status code `WriteHeader` rejects. -/
def GoValue.classifierReturns : GoValue → Bool
  | .pqErrorNil => false
  | .errorWithCode statusCode _ => decide (100 ≤ statusCode ∧ statusCode ≤ 999)
  | _ => true

/-- Calls on the transport that an outcome stands for. -/
def Outcome.writes (w : ResponseWriter) : Outcome → List Call
  | .terminal statusCode => [⟨w, .writeHeader statusCode⟩]
  | _ => []

/-- Whether an outcome asks for another attempt. -/
def Outcome.isRetry : Outcome → Bool
  | .retry => true
  | _ => false

/-- Calls the classifier adds for a recovered value: those of the outcome when it runs
to its end, none when it panics. -/
def recoverWrites (v : GoValue) (w : ResponseWriter) : List Call :=
  if v.classifierReturns then (classifySpec v).writes w else []

/-- Whether an invocation of an envelope handler ends with no response written and no
retry asked for: it returned a `Response` for which `json.Marshal` returns an error, or
it ended in a panic (of the handler or of `json.Marshal`) with a value on which the
classifier itself panics. -/
def endsSilently (out : Except GoValue Response) : Bool :=
  match out with
  | .ok res =>
    match jsonMarshalResponse res with
    | .ok (_, err) => decide (err ≠ .nil)
    | .error p => !(recoverOf (Except.error p : Except GoValue Unit)).classifierReturns
  | .error v => !(recoverOf (Except.error v : Except GoValue Unit)).classifierReturns

/-- Whether an invocation of a file handler ends with no response written and no retry
asked for: it panicked with a value on which the classifier itself panics. -/
def endsSilentlyFile (out : Except GoValue ResponseFile) : Bool :=
  match out with
  | .ok _ => false
  | .error v => !(recoverOf (Except.error v : Except GoValue Unit)).classifierReturns

/-- A handler over `Request` that starts by calling `req.Unmarshal(&target)` and goes
on with `body` on the decoded target. -/
def unmarshalThen {V RES : Type} (jsonUnmarshal : String → V → V × GoValue) (target : V)
    (body : Request → Nat → V → Except GoValue RES) : Handler Request RES :=
  fun req n => (req.Unmarshal jsonUnmarshal target).bind (body req n)

/-! ## Sample inputs -/

/-- A configuration with three attempts and a transport that reports no error. -/
def sampleEnv : Env := ⟨3, fun _ => .nil, fun _ => .nil⟩

/-- A response writer. -/
def sampleW : ResponseWriter := ⟨7⟩

/-- A POST request from an IPv4 peer with a JSON body. -/
def sampleR : HttpRequest := ⟨"192.0.2.1:4711", "\x7b\"name\":\"imchuncai\"\x7d", .nil, .nil, default, ""⟩

/-- The world before the dispatch. -/
def sampleS : World := ⟨[], [], 0⟩

/-- The `Request` that `from` builds for the sample request. -/
def sampleReq : Request := (Request.from' default sampleW sampleR).1

/-- The payload `struct{ Message string }{"Hello, imchuncai."}` with the JSON name
`message`, as `json.Marshal` sees it. -/
def helloPayload : Payload := ⟨.ok ("\x7b\"message\":\"Hello, imchuncai.\"\x7d", .nil)⟩

/-- A channel as payload: `json.Marshal` returns an unsupported-type error. -/
def chanPayload : Payload := ⟨.ok ("", .other "*json.UnsupportedTypeError")⟩

/-- A handler that meets a serialization failure twice, then succeeds. -/
def flakyHandler : Handler Request Response := fun _ n =>
  if n < 2 then .error (.pqError "40001")
  else .ok (Success helloPayload)

/-- A handler that meets a serialization failure twice, then returns a channel. -/
def flakyChanHandler : Handler Request Response := fun _ n =>
  if n < 2 then .error (.pqError "40001")
  else .ok (Success chanPayload)

/-- A handler that meets a lock-not-available conflict on every attempt. -/
def busyHandler : Handler Request Response := fun _ _ => .error (.pqError "55P03")

/-- A request from an IPv6 peer, with the address as `net/http` reports it. -/
def sampleR6 : HttpRequest := ⟨"[::1]:8080", "", .nil, .nil, default, ""⟩

/-- A request whose body is cut off inside the JSON object. -/
def malformedR : HttpRequest := ⟨"192.0.2.1:4711", "\x7b\"name\":", .nil, .nil, default, ""⟩

/-- A request whose body cannot be read. -/
def brokenBodyR : HttpRequest :=
  ⟨"192.0.2.1:4711", "", .other "unexpected EOF", .nil, default, ""⟩

/-- A handler that fails with status 404 through `FailWithHTTPCode`. -/
def notFoundHandler : Handler Request Response := fun _ _ =>
  FailWithHTTPCode (.errorString "no such user") 404

/-- A handler that returns a channel as the payload of a success envelope. -/
def chanHandler : Handler Request Response := fun _ _ => .ok (Success chanPayload)

/-- A sample result of `json.Unmarshal` into a string target: the two bodies used in
this development, the complete object and the one cut off inside it. -/
def sampleUnmarshal (data : String) (v : String) : String × GoValue :=
  if data = "\x7b\"name\":\"imchuncai\"\x7d" then ("imchuncai", .nil)
  else (v, .other "*json.SyntaxError: unexpected end of JSON input")

/-- A handler that decodes the body into a name and greets it. -/
def helloHandler : Handler Request Response :=
  unmarshalThen sampleUnmarshal ""
    (fun _ _ name =>
      .ok (Success ⟨.ok ("\x7b\"message\":" ++ jsonString ("Hello, " ++ name ++ ".")
        ++ "\x7d", .nil)⟩))

/-- A multipart request whose form cannot be parsed. -/
def brokenFormR : HttpRequest :=
  ⟨"192.0.2.1:4711", "", .nil, .other "multipart: NextPart: EOF", default, ""⟩

/-- A sample result of `params.Unpack` into a target with the one field `name`: the
query `name=imchuncai` sets it, any other query used here leaves it as it was. -/
def sampleUnpack (r : HttpRequest) (v : String) : String × GoValue :=
  if r.RawQuery = "name=imchuncai" then ("imchuncai", .nil) else (v, .nil)

/-- A streaming handler that decodes the name and greets it in two chunks. -/
def helloStream : RequestSSE → SSEHandler String := fun _ =>
  .Unmarshal "" (fun name => .Write "Hello, " (.Write (name ++ ".") .ret))

/-- A GET request whose query is a name. -/
def sampleGetR : HttpRequest :=
  ⟨"192.0.2.1:4711", "", .nil, .nil, default, "name=imchuncai"⟩

/-! ## Basic facts about the world -/

@[simp] theorem Log_calls (s : World) (l : LogLevel) (v : GoValue) :
    (Log s l v).calls = s.calls := rfl

@[simp] theorem Log_invoked (s : World) (l : LogLevel) (v : GoValue) :
    (Log s l v).invoked = s.invoked := rfl

@[simp] theorem call_calls (s : World) (w : ResponseWriter) (op : Op) :
    (s.call w op).calls = s.calls ++ [⟨w, op⟩] := rfl

@[simp] theorem call_invoked (s : World) (w : ResponseWriter) (op : Op) :
    (s.call w op).invoked = s.invoked := rfl

theorem isTransientCode_iff (code : String) :
    isTransientCode code = true ↔ (code = "40001" ∨ code = "55P03") := by
  simp [isTransientCode]

/-- A status code from 100 to 999 is accepted and the call recorded. -/
theorem WriteHeader_of_valid (s : World) (w : ResponseWriter) (code : Int)
    (h : 100 ≤ code ∧ code ≤ 999) :
    s.WriteHeader w code = (.ok (), s.call w (.writeHeader code)) := by
  have h' : ¬ (code < 100 ∨ code > 999) := by omega
  simp [World.WriteHeader, h']

/-- A status code outside 100..999 makes `WriteHeader` panic and leaves the world. -/
theorem WriteHeader_of_invalid (s : World) (w : ResponseWriter) (code : Int)
    (h : ¬ (100 ≤ code ∧ code ≤ 999)) :
    s.WriteHeader w code
      = (.error (.string ("invalid WriteHeader code " ++ toString code)), s) := by
  have h' : code < 100 ∨ code > 999 := by omega
  simp [World.WriteHeader, h']

/-- On a value it can classify, `doRecover` returns the retry flag of the outcome the
specification names and makes the calls of that outcome. -/
theorem doRecover_of_returns (v : GoValue) (w : ResponseWriter) (s : World)
    (h : v.classifierReturns = true) :
    (doRecover v w s).1 = .ok (classifySpec v).isRetry ∧
    (doRecover v w s).2.calls = s.calls ++ (classifySpec v).writes w ∧
    (doRecover v w s).2.invoked = s.invoked := by
  have h500 : ∀ s' : World, s'.WriteHeader w StatusInternalServerError
      = (.ok (), s'.call w (.writeHeader 500)) :=
    fun s' => WriteHeader_of_valid s' w 500 (by decide)
  cases v with
  | nil => simp [doRecover, classifySpec, Outcome.isRetry, Outcome.writes]
  | pqErrorNil => simp [GoValue.classifierReturns] at h
  | pqError code =>
    by_cases hc : code = "40001" ∨ code = "55P03"
    · simp [doRecover, hc, classifySpec, (isTransientCode_iff code).2 hc, Outcome.isRetry,
        Outcome.writes]
    · have h2 : isTransientCode code = false := by
        cases hb : isTransientCode code
        · rfl
        · exact absurd ((isTransientCode_iff code).1 hb) hc
      simp [doRecover, hc, h500, classifySpec, h2, Outcome.isRetry, Outcome.writes]
  | errorWithCode code origin =>
    have hv : 100 ≤ code ∧ code ≤ 999 := by simpa [GoValue.classifierReturns] using h
    simp [doRecover, WriteHeader_of_valid _ w code hv, classifySpec, Outcome.isRetry,
      Outcome.writes]
  | errorString msg =>
    simp [doRecover, h500, classifySpec, Outcome.isRetry, Outcome.writes]
  | wrapError msg inner =>
    simp [doRecover, h500, classifySpec, Outcome.isRetry, Outcome.writes]
  | string str =>
    simp [doRecover, h500, classifySpec, Outcome.isRetry, Outcome.writes]
  | other desc =>
    simp [doRecover, h500, classifySpec, Outcome.isRetry, Outcome.writes]

/-- On a value it cannot classify, `doRecover` panics and leaves the world as it was. -/
theorem doRecover_of_panics (v : GoValue) (w : ResponseWriter) (s : World)
    (h : v.classifierReturns = false) :
    (doRecover v w s).2 = s ∧ ∃ p, (doRecover v w s).1 = .error p := by
  cases v with
  | pqErrorNil => exact ⟨rfl, _, rfl⟩
  | errorWithCode code origin =>
    have hv : ¬ (100 ≤ code ∧ code ≤ 999) := by simpa [GoValue.classifierReturns] using h
    simp [doRecover, WriteHeader_of_invalid _ w code hv]
  | nil => simp [GoValue.classifierReturns] at h
  | pqError code => simp [GoValue.classifierReturns] at h
  | errorString msg => simp [GoValue.classifierReturns] at h
  | wrapError msg inner => simp [GoValue.classifierReturns] at h
  | string str => simp [GoValue.classifierReturns] at h
  | other desc => simp [GoValue.classifierReturns] at h

/-- The calls the classifier adds. -/
theorem doRecover_calls (v : GoValue) (w : ResponseWriter) (s : World) :
    (doRecover v w s).2.calls = s.calls ++ recoverWrites v w := by
  unfold recoverWrites
  cases h : v.classifierReturns
  · simp [(doRecover_of_panics v w s h).1]
  · simp [(doRecover_of_returns v w s h).2.1]

/-- The classifier never changes the invocation count. -/
theorem doRecover_invoked (v : GoValue) (w : ResponseWriter) (s : World) :
    (doRecover v w s).2.invoked = s.invoked := by
  cases h : v.classifierReturns
  · rw [(doRecover_of_panics v w s h).1]
  · exact (doRecover_of_returns v w s h).2.2

theorem classifySpec_isRetry_iff (v : GoValue) :
    (classifySpec v).isRetry = true ↔
      ∃ code, v = .pqError code ∧ (code = "40001" ∨ code = "55P03") := by
  cases v <;> simp [classifySpec, Outcome.isRetry]
  rename_i code
  cases hb : isTransientCode code
  · simp [Outcome.isRetry]
    have h : ¬ (code = "40001" ∨ code = "55P03") := fun h => by
      have := (isTransientCode_iff code).2 h
      simp [hb] at this
    exact not_or.mp h
  · simp [Outcome.isRetry]
    exact (isTransientCode_iff code).1 hb

/-- The classifier returns `retry = true` exactly for a transient-conflict `*pq.Error`. -/
theorem doRecover_retry_iff (v : GoValue) (w : ResponseWriter) (s : World) :
    (doRecover v w s).1 = .ok true ↔
      ∃ code, v = .pqError code ∧ (code = "40001" ∨ code = "55P03") := by
  cases h : v.classifierReturns
  · obtain ⟨_, p, hp⟩ := doRecover_of_panics v w s h
    rw [hp]
    constructor
    · intro e; cases e
    · rintro ⟨code, rfl, _⟩
      simp [GoValue.classifierReturns] at h
  · rw [(doRecover_of_returns v w s h).1, ← classifySpec_isRetry_iff]
    constructor
    · intro e; injection e
    · intro e; rw [e]

/-- A recovered panic value is never nil. -/
theorem recoverOf_error_ne_nil (v : GoValue) :
    recoverOf (Except.error v : Except GoValue Unit) ≠ .nil := by
  cases v <;> simp [recoverOf]

theorem writeHeaderCodes_append (xs ys : List Call) :
    writeHeaderCodes (xs ++ ys) = writeHeaderCodes xs ++ writeHeaderCodes ys := by
  induction xs with
  | nil => rfl
  | cons c xs ih =>
    obtain ⟨cw, op⟩ := c
    cases op <;> simp [writeHeaderCodes, ih]

theorem writtenChunks_append (xs ys : List Call) :
    writtenChunks (xs ++ ys) = writtenChunks xs ++ writtenChunks ys := by
  induction xs with
  | nil => rfl
  | cons c xs ih =>
    obtain ⟨cw, op⟩ := c
    cases op <;> simp [writtenChunks, ih]

theorem responseWrites_append (xs ys : List Call) :
    responseWrites (xs ++ ys) = responseWrites xs + responseWrites ys := by
  simp [responseWrites]

/-! ## One attempt, and runs of attempts -/

/-- An attempt whose handler panics with a transient conflict asks for a retry, and
only the invocation count and the log change. -/
theorem handle_of_transient {R RES : Type} [request R] [response RES] (env : Env)
    (handler : Handler R RES) (r : R) (s : World) (code : String)
    (h : handler r s.invoked = .error (.pqError code))
    (hc : code = "40001" ∨ code = "55P03") :
    handle env handler r s
      = (.ok true, Log { s with invoked := s.invoked + 1 } .WARN (.pqError code)) := by
  simp [handle, h, recoverOf, doRecover, hc]

/-- An attempt whose handler panics hands the recovered value to the classifier. -/
theorem handle_of_panic {R RES : Type} [request R] [response RES] (env : Env)
    (handler : Handler R RES) (r : R) (s : World) (v : GoValue)
    (h : handler r s.invoked = .error v) :
    handle env handler r s
      = doRecover (recoverOf (Except.error v : Except GoValue Unit)) (request.Res r)
          { s with invoked := s.invoked + 1 } := by
  simp [handle, h]

/-- An attempt whose handler returns and whose encoder returns logs the encoder's
error, if any, and does not ask for a retry. -/
theorem handle_of_ok {R RES : Type} [request R] [response RES] (env : Env)
    (handler : Handler R RES) (r : R) (s : World) (res : RES) (err : GoValue) (s2 : World)
    (h : handler r s.invoked = .ok res)
    (hdo : response.do' env res (request.Res r) (request.Req r)
        { s with invoked := s.invoked + 1 } = (.ok err, s2)) :
    handle env handler r s
      = (.ok false, if err ≠ .nil then Log s2 .ERROR err else s2) := by
  simp [handle, h, hdo, recoverOf, doRecover]

/-- An attempt whose handler returns and whose encoder panics hands the recovered
value to the classifier. -/
theorem handle_of_encoder_panic {R RES : Type} [request R] [response RES] (env : Env)
    (handler : Handler R RES) (r : R) (s : World) (res : RES) (p : GoValue) (s2 : World)
    (h : handler r s.invoked = .ok res)
    (hdo : response.do' env res (request.Res r) (request.Req r)
        { s with invoked := s.invoked + 1 } = (.error p, s2)) :
    handle env handler r s
      = doRecover (recoverOf (Except.error p : Except GoValue Unit)) (request.Res r) s2 := by
  simp [handle, h, hdo]

/-- The envelope encoder on a response with a serialization: the content type, one
write of the bytes, and a returned error (the write error, if any). -/
theorem Response_do_of_bytes (env : Env) (res : Response) (w : ResponseWriter)
    (r : HttpRequest) (s : World) (bytes : String)
    (h : jsonMarshalResponse res = .ok (bytes, .nil)) :
    ∃ err, Response.do' env res w r s
      = (.ok err, (s.call w (.setHeader "Content-Type" "application/json")).call w
          (.write bytes)) := by
  unfold Response.do'
  by_cases h2 : env.writeErr (s.calls ++ [⟨w, .setHeader "Content-Type" "application/json"⟩])
      = .nil
  · exact ⟨.nil, by simp [h, h2, Fprint]⟩
  · exact ⟨.wrapError "write to http.ResponseWriter failed"
      (env.writeErr (s.calls ++ [⟨w, .setHeader "Content-Type" "application/json"⟩])),
      by simp [h, h2, Fprint]⟩

/-- The envelope encoder on a response whose serialization returns an error: the
content type only, and the error comes back wrapped. -/
theorem Response_do_of_error (env : Env) (res : Response) (w : ResponseWriter)
    (r : HttpRequest) (s : World) (bytes : String) (err : GoValue)
    (h : jsonMarshalResponse res = .ok (bytes, err)) (herr : err ≠ .nil) :
    Response.do' env res w r s
      = (.ok (.wrapError "json marshal response failed" err),
          s.call w (.setHeader "Content-Type" "application/json")) := by
  simp [Response.do', h, herr]

/-- The envelope encoder on a response whose serialization panics: the content type
only, and the panic goes through. -/
theorem Response_do_of_panic (env : Env) (res : Response) (w : ResponseWriter)
    (r : HttpRequest) (s : World) (p : GoValue)
    (h : jsonMarshalResponse res = .error p) :
    Response.do' env res w r s
      = (.error p, s.call w (.setHeader "Content-Type" "application/json")) := by
  simp [Response.do', h]

/-- The first `K` attempts of the loop, all ending in a transient conflict, leave the
call log as it was and count `K` invocations. -/
theorem retryLoop_skip {R RES : Type} [request R] [response RES] (env : Env)
    (handler : Handler R RES) (w : ResponseWriter) (req : R) (K : Nat) :
    ∀ (n : Nat) (s : World),
      (∀ i, i < K → ∃ code, (code = "40001" ∨ code = "55P03") ∧
          handler req (s.invoked + i) = .error (.pqError code)) →
      ∃ s', retryLoop env handler w req (K + n) s = retryLoop env handler w req n s' ∧
        s'.calls = s.calls ∧ s'.invoked = s.invoked + K := by
  induction K with
  | zero =>
    intro n s _
    exact ⟨s, by simp, rfl, rfl⟩
  | succ K ih =>
    intro n s hfail
    obtain ⟨code, hc, h0⟩ := hfail 0 (Nat.succ_pos K)
    have hstep := handle_of_transient env handler req s code (by simpa using h0) hc
    obtain ⟨s', hrun, hcalls, hinv⟩ :=
      ih n (Log { s with invoked := s.invoked + 1 } .WARN (.pqError code)) (by
        intro i hi
        obtain ⟨c, hc', hh⟩ := hfail (i + 1) (Nat.succ_lt_succ hi)
        refine ⟨c, hc', ?_⟩
        have e : s.invoked + 1 + i = s.invoked + (i + 1) := by omega
        simpa [e] using hh)
    refine ⟨s', ?_, ?_, ?_⟩
    · have e : K + 1 + n = (K + n) + 1 := by omega
      rw [e, retryLoop, hstep]
      simpa using hrun
    · simpa using hcalls
    · simp at hinv
      omega

/-! ## Shape of the envelope serialization -/

/-- A serialization of an envelope is the object around the payload's bytes. -/
theorem jsonMarshalResponse_bytes (res : Response) (bytes : String)
    (h : jsonMarshalResponse res = .ok (bytes, .nil)) :
    ∃ data, res.Data.marshal = .ok (data, .nil) ∧ bytes = responseObject res data := by
  unfold jsonMarshalResponse at h
  rcases hm : res.Data.marshal with p | ⟨data, err⟩
  · rw [hm] at h; cases h
  · rw [hm] at h
    by_cases he : err = .nil
    · subst he
      simp at h
      exact ⟨data, rfl, h.symm⟩
    · simp [he] at h

/-- The envelope of a payload that serializes to `data`. -/
theorem jsonMarshalResponse_of_data (res : Response) (data : String)
    (h : res.Data.marshal = .ok (data, .nil)) :
    jsonMarshalResponse res = .ok (responseObject res data, .nil) := by
  simp [jsonMarshalResponse, h]

/-- No envelope object is the busy body. -/
theorem responseObject_ne_busyBody (res : Response) (data : String) :
    responseObject res data ≠ busyBody := by
  intro heq
  have hd := congrArg String.data heq
  simp [responseObject, busyBody, String.data_append] at hd

/-- The object of a success envelope. -/
theorem responseObject_Success (d : Payload) (data : String) :
    responseObject (Success d) data
      = "\x7b\"success\":true,\"code\":0,\"msg\":\"\",\"data\":" ++ data ++ "\x7d" := by
  have e1 : toString (0 : Int) = "0" := by decide
  have e2 : jsonString "" = "\"\"" := by decide
  simp only [responseObject, Success, e1, e2, if_true]
  apply String.ext
  simp [String.data_append]

/-- Dispatch after `K` transient conflicts and a returned envelope that serializes to
`bytes`: it returns, made `K + 1` invocations, and left on the transport the content
type and one write of `bytes`. -/
theorem wrapHandler_after_transients {R : Type} [request R] (env : Env)
    (handler : Handler R Response) (w : ResponseWriter) (r : HttpRequest) (s : World)
    (req : R) (K : Nat) (res : Response) (bytes : String)
    (hdecode : request.from' (request.zero : R) w r = (req, .nil))
    (hK : (K : Int) < env.MAX_TRY)
    (hfail : ∀ i, i < K → ∃ code, (code = "40001" ∨ code = "55P03") ∧
        handler req (s.invoked + i) = .error (.pqError code))
    (hok : handler req (s.invoked + K) = .ok res)
    (hser : jsonMarshalResponse res = .ok (bytes, .nil)) :
    (wrapHandler env handler w r s).1 = .ok () ∧
    (wrapHandler env handler w r s).2.invoked = s.invoked + (K + 1) ∧
    (wrapHandler env handler w r s).2.calls
      = s.calls ++ [⟨request.Res req, .setHeader "Content-Type" "application/json"⟩,
          ⟨request.Res req, .write bytes⟩] := by
  obtain ⟨n, hn⟩ : ∃ n, env.MAX_TRY.toNat = K + (n + 1) :=
    ⟨env.MAX_TRY.toNat - K - 1, by omega⟩
  obtain ⟨s', hrun, hcalls, hinv⟩ := retryLoop_skip env handler w req K (n + 1) s hfail
  have hok' : handler req s'.invoked = .ok res := by rw [hinv]; exact hok
  obtain ⟨err, hdo⟩ := Response_do_of_bytes env res (request.Res req) (request.Req req)
    { s' with invoked := s'.invoked + 1 } bytes hser
  have hstep := handle_of_ok env handler req s' res err _ hok' hdo
  have hfinal : wrapHandler env handler w r s
      = (.ok (), if err ≠ .nil then
          Log (({ s' with invoked := s'.invoked + 1 }.call (request.Res req)
            (.setHeader "Content-Type" "application/json")).call (request.Res req)
            (.write bytes)) .ERROR err
        else
          ({ s' with invoked := s'.invoked + 1 }.call (request.Res req)
            (.setHeader "Content-Type" "application/json")).call (request.Res req)
            (.write bytes)) := by
    simp [wrapHandler, hdecode, hn, hrun, retryLoop, hstep]
  rw [hfinal]
  refine ⟨rfl, ?_, ?_⟩
  · show (if _ then _ else _ : World).invoked = _
    split <;> simp [hinv] <;> omega
  · show (if _ then _ else _ : World).calls = _
    split <;> simp [hcalls]

/-! ## Properties of the classifier, the dispatch and the streaming path -/

/-- C4, as the code has it: for every recovered value `v` on which `doRecover` runs to
its end (every `v` other than an `ErrorWithCode` whose status code is outside 100..999
and a nil `*pq.Error`), `doRecover` is the classifier of the specification: its retry
flag and its calls on `w` are those of the outcome the specification names.  Nil
leaves the world untouched and returns false; a `*pq.Error` with code 40001 or 55P03
writes nothing and returns true, with any other code it writes status 500 and returns
false; an `ErrorWithCode` with a status code in 100..999 writes that code and returns
false; every other value writes status 500 and returns false.  For every `v` whatever,
`retry = true` is returned exactly when `v` is a `*pq.Error` with code 40001 or
55P03.  On the two excepted kinds of value `doRecover` panics and leaves the world as
it was: nothing is written and nothing is logged. -/
theorem doRecover_refines_classifier (v : GoValue) (w : ResponseWriter) (s : World)
    (h : v.classifierReturns = true) :
    (doRecover v w s).1 = .ok (classifySpec v).isRetry ∧
    (doRecover v w s).2.calls = s.calls ++ (classifySpec v).writes w ∧
    (∀ v' : GoValue, (doRecover v' w s).1 = .ok true ↔
      ∃ code, v' = .pqError code ∧ (code = "40001" ∨ code = "55P03")) ∧
    doRecover .nil w s = (.ok false, s) ∧
    (∀ code, (doRecover (.pqError code) w s).1
        = .ok (decide (code = "40001" ∨ code = "55P03")) ∧
      (doRecover (.pqError code) w s).2.calls
        = if code = "40001" ∨ code = "55P03" then s.calls
          else s.calls ++ [⟨w, .writeHeader 500⟩]) ∧
    (∀ statusCode origin,
      (doRecover (.errorWithCode statusCode origin) w s).2.calls
        = if 100 ≤ statusCode ∧ statusCode ≤ 999 then
            s.calls ++ [⟨w, .writeHeader statusCode⟩]
          else s.calls) ∧
    (∀ statusCode origin,
      (doRecover (.errorWithCode statusCode origin) w s).1
        = if 100 ≤ statusCode ∧ statusCode ≤ 999 then .ok false
          else .error (.string ("invalid WriteHeader code " ++ toString statusCode))) ∧
    (∀ msg, (doRecover (.errorString msg) w s).1 = .ok false ∧
      (doRecover (.errorString msg) w s).2.calls = s.calls ++ [⟨w, .writeHeader 500⟩]) ∧
    (∀ msg inner, (doRecover (.wrapError msg inner) w s).1 = .ok false ∧
      (doRecover (.wrapError msg inner) w s).2.calls = s.calls ++ [⟨w, .writeHeader 500⟩]) ∧
    (∀ str, (doRecover (.string str) w s).1 = .ok false ∧
      (doRecover (.string str) w s).2.calls = s.calls ++ [⟨w, .writeHeader 500⟩]) ∧
    (∀ desc, (doRecover (.other desc) w s).1 = .ok false ∧
      (doRecover (.other desc) w s).2.calls = s.calls ++ [⟨w, .writeHeader 500⟩]) ∧
    doRecover .pqErrorNil w s = (.error nilDereference, s) ∧
    (∀ v' : GoValue, v'.classifierReturns = false →
      (doRecover v' w s).2 = s ∧ ∃ p, (doRecover v' w s).1 = .error p) := by
  have h500 : ∀ s' : World, s'.WriteHeader w StatusInternalServerError
      = (.ok (), s'.call w (.writeHeader 500)) :=
    fun s' => WriteHeader_of_valid s' w 500 (by decide)
  obtain ⟨h1, h2, _⟩ := doRecover_of_returns v w s h
  refine ⟨h1, h2, fun v' => doRecover_retry_iff v' w s, rfl, ?_, ?_, ?_, ?_, ?_, ?_, ?_, rfl,
    fun v' hv' => doRecover_of_panics v' w s hv'⟩
  · intro code
    by_cases hc : code = "40001" ∨ code = "55P03" <;> simp [doRecover, hc, h500]
  · intro statusCode origin
    by_cases hv : 100 ≤ statusCode ∧ statusCode ≤ 999
    · simp [doRecover, WriteHeader_of_valid _ w statusCode hv, hv]
    · simp [doRecover, WriteHeader_of_invalid _ w statusCode hv, hv]
  · intro statusCode origin
    by_cases hv : 100 ≤ statusCode ∧ statusCode ≤ 999
    · simp [doRecover, WriteHeader_of_valid _ w statusCode hv, hv]
    · simp [doRecover, WriteHeader_of_invalid _ w statusCode hv, hv]
  · intro msg
    simp [doRecover, h500]
  · intro msg inner
    simp [doRecover, h500]
  · intro str
    simp [doRecover, h500]
  · intro desc
    simp [doRecover, h500]

/-- An explicit failure with status 404: the classifier writes 404 and returns false. -/
theorem doRecover_refines_classifier_witness :
    (GoValue.errorWithCode 404 (.errorString "no such user")).classifierReturns = true ∧
    (doRecover (.errorWithCode 404 (.errorString "no such user")) sampleW sampleS).1
      = .ok false ∧
    (doRecover (.errorWithCode 404 (.errorString "no such user")) sampleW sampleS).2.calls
      = sampleS.calls ++ [⟨sampleW, .writeHeader 404⟩] :=
  have h := doRecover_refines_classifier (.errorWithCode 404 (.errorString "no such user"))
    sampleW sampleS (by decide)
  ⟨by decide, h.1, h.2.1⟩

/-- C4, counterexample: for `ErrorWithCode{0, err}` the call `WriteHeader(0)` panics,
so `doRecover` does not return `retry = false`, records no call and logs nothing; for a
nil `*pq.Error` it panics on reading the code, where the claim has status 500. -/
theorem doRecover_of_status_zero_panics :
    (doRecover (.errorWithCode 0 (.errorString "no status")) sampleW sampleS).1
      = .error (.string "invalid WriteHeader code 0") ∧
    (doRecover (.errorWithCode 0 (.errorString "no status")) sampleW sampleS).1
      ≠ .ok false ∧
    (doRecover (.errorWithCode 0 (.errorString "no status")) sampleW sampleS).2 = sampleS ∧
    (doRecover .pqErrorNil sampleW sampleS).1 = .error nilDereference ∧
    (doRecover .pqErrorNil sampleW sampleS).2.calls ≠ [⟨sampleW, .writeHeader 500⟩] := by
  refine ⟨by decide, by decide, by decide, by decide, by decide⟩

/-- C1, as the code has it: with `0 < MAX_TRY` and a request whose decoding succeeds, if
the handler panics with a transient-conflict `*pq.Error` on its first `K` invocations
(`K < MAX_TRY`) and returns on the next one a response `res` that `json.Marshal`
serializes to `bytes`, then the function returned by `wrapHandler` returns, invokes the
handler exactly `K + 1` times, and the calls on the transport are exactly those the
encoder makes for `res`: the content type and one write of `bytes`.  No status code is
written, and neither the failed attempts nor the busy body add a call. -/
theorem wrapHandler_retry_then_success {R : Type} [request R] (env : Env)
    (handler : Handler R Response) (w : ResponseWriter) (r : HttpRequest) (s : World)
    (req : R) (K : Nat) (res : Response) (bytes : String)
    (hmax : 0 < env.MAX_TRY)
    (hdecode : request.from' (request.zero : R) w r = (req, .nil))
    (hK : (K : Int) < env.MAX_TRY)
    (hfail : ∀ i, i < K → ∃ code, (code = "40001" ∨ code = "55P03") ∧
        handler req (s.invoked + i) = .error (.pqError code))
    (hok : handler req (s.invoked + K) = .ok res)
    (hser : jsonMarshalResponse res = .ok (bytes, .nil)) :
    (wrapHandler env handler w r s).1 = .ok () ∧
    (wrapHandler env handler w r s).2.invoked = s.invoked + (K + 1) ∧
    (wrapHandler env handler w r s).2.calls
      = s.calls ++ [⟨request.Res req, .setHeader "Content-Type" "application/json"⟩,
          ⟨request.Res req, .write bytes⟩] ∧
    (wrapHandler env handler w r s).2.calls
      = (Response.do' env res (request.Res req) (request.Req req) s).2.calls ∧
    writeHeaderCodes (wrapHandler env handler w r s).2.calls = writeHeaderCodes s.calls ∧
    busyBody ∉
      writtenChunks ((wrapHandler env handler w r s).2.calls.drop s.calls.length) := by
  have _ := hmax
  obtain ⟨hret, hi, hc⟩ :=
    wrapHandler_after_transients env handler w r s req K res bytes hdecode hK hfail hok hser
  refine ⟨hret, hi, hc, ?_, ?_, ?_⟩
  · obtain ⟨err, hdo⟩ := Response_do_of_bytes env res (request.Res req) (request.Req req)
      s bytes hser
    rw [hc, hdo]
    simp
  · rw [hc, writeHeaderCodes_append]
    simp [writeHeaderCodes]
  · rw [hc, List.drop_left]
    obtain ⟨data, _, hb⟩ := jsonMarshalResponse_bytes res bytes hser
    have hne := responseObject_ne_busyBody res data
    rw [← hb] at hne
    simpa [writtenChunks] using hne.symm

/-- Two serialization failures, then a greeting: three invocations, one envelope. -/
theorem wrapHandler_retry_then_success_witness :
    (0 : Int) < sampleEnv.MAX_TRY ∧
    request.from' (request.zero : Request) sampleW sampleR = (sampleReq, .nil) ∧
    (wrapHandler sampleEnv flakyHandler sampleW sampleR sampleS).1 = .ok () ∧
    (wrapHandler sampleEnv flakyHandler sampleW sampleR sampleS).2.invoked = 3 ∧
    (wrapHandler sampleEnv flakyHandler sampleW sampleR sampleS).2.calls
      = [⟨sampleW, .setHeader "Content-Type" "application/json"⟩,
         ⟨sampleW, .write
            "\x7b\"success\":true,\"code\":0,\"msg\":\"\",\"data\":\x7b\"message\":\"Hello, imchuncai.\"\x7d\x7d"⟩] :=
  have h := wrapHandler_retry_then_success sampleEnv flakyHandler sampleW sampleR sampleS
    sampleReq 2 (Success helloPayload)
    "\x7b\"success\":true,\"code\":0,\"msg\":\"\",\"data\":\x7b\"message\":\"Hello, imchuncai.\"\x7d\x7d"
    (by decide) (by decide) (by decide)
    (fun i hi => ⟨"40001", Or.inl rfl, by simp [flakyHandler, sampleS, hi]⟩)
    rfl (by decide)
  ⟨by decide, by decide, h.1, h.2.1, h.2.2.1⟩

/-- C1, counterexample: with three attempts and a decoded `Request`, a handler that
panics twice with code 40001 and then returns `Success(ch)` for a channel `ch` is
invoked three times, and no encoding of the response is written: the only call on the
transport sets the content type. -/
theorem retry_then_channel_writes_no_encoding :
    (0 : Int) < sampleEnv.MAX_TRY ∧
    request.from' (request.zero : Request) sampleW sampleR = (sampleReq, .nil) ∧
    flakyChanHandler sampleReq 0 = .error (.pqError "40001") ∧
    flakyChanHandler sampleReq 1 = .error (.pqError "40001") ∧
    flakyChanHandler sampleReq 2 = .ok (Success chanPayload) ∧
    (wrapHandler sampleEnv flakyChanHandler sampleW sampleR sampleS).2.invoked = 3 ∧
    (wrapHandler sampleEnv flakyChanHandler sampleW sampleR sampleS).2.calls
      = [⟨sampleW, .setHeader "Content-Type" "application/json"⟩] ∧
    writtenChunks (wrapHandler sampleEnv flakyChanHandler sampleW sampleR sampleS).2.calls
      = [] := by
  refine ⟨by decide, by decide, rfl, rfl, rfl, by decide, by decide, by decide⟩

/-- C2: with `0 < MAX_TRY` and a request whose decoding succeeds, if the handler panics
with a transient-conflict `*pq.Error` on every invocation, then the function returned
by `wrapHandler` returns, invokes the handler exactly `MAX_TRY` times, never calls
`WriteHeader`, and its only call on the transport is one write of the busy body
`{"ok":false,"msg":"Server is busy, please try later!"}`. -/
theorem wrapHandler_always_transient {R RES : Type} [request R] [response RES] (env : Env)
    (handler : Handler R RES) (w : ResponseWriter) (r : HttpRequest) (s : World) (req : R)
    (hmax : 0 < env.MAX_TRY)
    (hdecode : request.from' (request.zero : R) w r = (req, .nil))
    (hfail : ∀ n, ∃ code, (code = "40001" ∨ code = "55P03") ∧
        handler req n = .error (.pqError code)) :
    ((wrapHandler env handler w r s).2.invoked : Int) = s.invoked + env.MAX_TRY ∧
    (wrapHandler env handler w r s).2.calls = s.calls ++ [⟨w, .write busyBody⟩] ∧
    writeHeaderCodes (wrapHandler env handler w r s).2.calls = writeHeaderCodes s.calls ∧
    busyBody = "\x7b\"ok\":false,\"msg\":\"Server is busy, please try later!\"\x7d" ∧
    (wrapHandler env handler w r s).1 = .ok () := by
  obtain ⟨s', hrun, hcalls, hinv⟩ :=
    retryLoop_skip env handler w req env.MAX_TRY.toNat 0 s (fun i _ => hfail (s.invoked + i))
  have hfinal : wrapHandler env handler w r s = (.ok (), (Fprint env w busyBody s').1) := by
    simp [wrapHandler, hdecode]
    simpa [retryLoop] using hrun
  have hc : (wrapHandler env handler w r s).2.calls
      = s.calls ++ [⟨w, .write busyBody⟩] := by
    rw [hfinal]
    simp [Fprint, hcalls]
  refine ⟨?_, hc, ?_, rfl, by rw [hfinal]⟩
  · rw [hfinal]
    simp [Fprint, hinv]
    omega
  · rw [hc, writeHeaderCodes_append]
    simp [writeHeaderCodes]

/-- Three attempts, all meeting a lock conflict: three invocations, the busy body. -/
theorem wrapHandler_always_transient_witness :
    (0 : Int) < sampleEnv.MAX_TRY ∧
    request.from' (request.zero : Request) sampleW sampleR = (sampleReq, .nil) ∧
    ((wrapHandler sampleEnv busyHandler sampleW sampleR sampleS).2.invoked : Int)
      = sampleS.invoked + sampleEnv.MAX_TRY ∧
    (wrapHandler sampleEnv busyHandler sampleW sampleR sampleS).2.calls
      = sampleS.calls ++ [⟨sampleW, .write busyBody⟩] :=
  have h := wrapHandler_always_transient sampleEnv busyHandler sampleW sampleR sampleS
    sampleReq (by decide) (by decide) (fun _ => ⟨"55P03", Or.inr rfl, rfl⟩)
  ⟨by decide, by decide, h.1, h.2.1⟩

/-- C5: `FailWithHTTPCode(err, N)` panics with `ErrorWithCode{403, err}` for every `N`:
the status code argument is not used.  A handler that calls it with `N = 404` ends the
request with status 403.  `Forbidden` and `BadRequest` panic with 403 and 400. -/
theorem FailWithHTTPCode_status_is_403 :
    (∀ (err : GoValue) (N : Int),
      (FailWithHTTPCode err N : Except GoValue Response) = .error (.errorWithCode 403 err)) ∧
    (FailWithHTTPCode (.errorString "no such user") 404 : Except GoValue Response)
      ≠ .error (.errorWithCode 404 (.errorString "no such user")) ∧
    (wrapHandler sampleEnv notFoundHandler sampleW sampleR sampleS).2.calls
      = [⟨sampleW, .writeHeader 403⟩] ∧
    (∀ err : GoValue,
      (Forbidden err : Except GoValue Response) = .error (.errorWithCode 403 err) ∧
      (BadRequest err : Except GoValue Response) = .error (.errorWithCode 400 err)) ∧
    (wrapHandler sampleEnv notFoundHandler sampleW sampleR sampleS).1 = .ok () := by
  refine ⟨fun _ _ => rfl, ?_, by decide, fun _ => ⟨rfl, rfl⟩, by decide⟩
  simp [FailWithHTTPCode, panicWithHTTPCode, StatusForbidden]

/-- The writer stored by `commonRequest.From` is the one passed in. -/
theorem commonRequest_From_w (c : commonRequest) (w : ResponseWriter) (r : HttpRequest) :
    (c.From w r).w = w := by
  unfold commonRequest.From
  by_cases h : r.RemoteAddr = "" <;> simp [h]

/-- The request stored by `commonRequest.From` is the one passed in. -/
theorem commonRequest_From_r (c : commonRequest) (w : ResponseWriter) (r : HttpRequest) :
    (c.From w r).r = r := by
  unfold commonRequest.From
  by_cases h : r.RemoteAddr = "" <;> simp [h]

/-- C6: for a `Request` whose body was read and is rejected by `json.Unmarshal` for the
target, and `0 < MAX_TRY`: `Request.from` returns no error; the call of `req.Unmarshal`
panics with `ErrorWithCode{400, err}`; a handler that starts by calling `req.Unmarshal`
is invoked exactly once, and the only call on the transport is `WriteHeader(400)`: no
body, no second invocation, no busy body. -/
theorem wrapHandler_malformed_json {V RES : Type} [response RES] (env : Env)
    (jsonUnmarshal : String → V → V × GoValue) (target : V)
    (body : Request → Nat → V → Except GoValue RES)
    (w : ResponseWriter) (r : HttpRequest) (s : World)
    (hmax : 0 < env.MAX_TRY)
    (hread : r.bodyErr = .nil)
    (hbad : (jsonUnmarshal r.Body target).2 ≠ .nil) :
    (Request.from' default w r).2 = .nil ∧
    (Request.from' default w r).1.Unmarshal jsonUnmarshal target
      = .error (.errorWithCode 400 (jsonUnmarshal r.Body target).2) ∧
    (wrapHandler env (unmarshalThen jsonUnmarshal target body) w r s).2.invoked
      = s.invoked + 1 ∧
    (wrapHandler env (unmarshalThen jsonUnmarshal target body) w r s).2.calls
      = s.calls ++ [⟨w, .writeHeader 400⟩] ∧
    (wrapHandler env (unmarshalThen jsonUnmarshal target body) w r s).1 = .ok () := by
  obtain ⟨n, hn⟩ : ∃ n, env.MAX_TRY.toNat = n + 1 := ⟨env.MAX_TRY.toNat - 1, by omega⟩
  have hfrom : Request.from' default w r
      = ({ toCommon := (default : commonRequest).From w r, data := some r.Body }, .nil) := by
    simp [Request.from', hread]
    rfl
  have hun : (Request.from' default w r).1.Unmarshal jsonUnmarshal target
      = .error (.errorWithCode 400 (jsonUnmarshal r.Body target).2) := by
    rw [hfrom]
    simp [Request.Unmarshal, MustWithHTTPCode, hbad, panicWithHTTPCode, StatusBadRequest,
      Except.map]
  have hw : request.Res (Request.from' default w r).1 = w := by
    rw [hfrom]
    exact commonRequest_From_w _ w r
  have hrun : wrapHandler env (unmarshalThen jsonUnmarshal target body) w r s
      = (.ok (), Log ({ s with invoked := s.invoked + 1 }.call w (.writeHeader 400)) .WARN
          (.errorWithCode 400 (jsonUnmarshal r.Body target).2)) := by
    have hfrom' : request.from' (request.zero : Request) w r = Request.from' default w r := rfl
    unfold wrapHandler
    rw [hfrom', hn]
    have h2 : (Request.from' default w r).2 = .nil := by rw [hfrom]
    simp only [h2, ne_eq, not_true_eq_false, if_false, retryLoop]
    rw [handle_of_panic env _ (Request.from' default w r).1 s
      (.errorWithCode 400 (jsonUnmarshal r.Body target).2)
      (by simp [unmarshalThen, hun, Except.bind])]
    simp [recoverOf, doRecover, hw, WriteHeader_of_valid _ w 400 (by decide)]
  refine ⟨by rw [hfrom], hun, ?_, ?_, ?_⟩
  · rw [hrun]; rfl
  · rw [hrun]; rfl
  · rw [hrun]

/-- A body cut off inside the object: one invocation, status 400. -/
theorem wrapHandler_malformed_json_witness :
    (0 : Int) < sampleEnv.MAX_TRY ∧ malformedR.bodyErr = .nil ∧
    (sampleUnmarshal malformedR.Body "").2 ≠ .nil ∧
    (wrapHandler sampleEnv helloHandler sampleW malformedR sampleS).2.invoked = 1 ∧
    (wrapHandler sampleEnv helloHandler sampleW malformedR sampleS).2.calls
      = [⟨sampleW, .writeHeader 400⟩] :=
  have h := wrapHandler_malformed_json sampleEnv sampleUnmarshal ""
    (fun _ _ name =>
      (.ok (Success ⟨.ok ("\x7b\"message\":" ++ jsonString ("Hello, " ++ name ++ ".")
        ++ "\x7d", .nil)⟩) : Except GoValue Response))
    sampleW malformedR sampleS (by decide) (by decide) (by decide)
  ⟨by decide, by decide, by decide, h.2.2.1, h.2.2.2.1⟩

/-- After `Request.from` the request answers `Res()` with the writer passed in. -/
theorem Request_from_Res (w : ResponseWriter) (r : HttpRequest) :
    request.Res (request.from' (request.zero : Request) w r).1 = w := by
  show (Request.from' default w r).1.toCommon.w = w
  unfold Request.from'
  by_cases h : r.bodyErr = .nil <;> simp [h, commonRequest_From_w]

/-- After `RequestGet.from` the request answers `Res()` with the writer passed in. -/
theorem RequestGet_from_Res (w : ResponseWriter) (r : HttpRequest) :
    request.Res (request.from' (request.zero : RequestGet) w r).1 = w := by
  show (RequestGet.from' default w r).1.toCommon.w = w
  simp [RequestGet.from', commonRequest_From_w]

/-- After `RequestForm.from` the request answers `Res()` with the writer passed in. -/
theorem RequestForm_from_Res (w : ResponseWriter) (r : HttpRequest) :
    request.Res (request.from' (request.zero : RequestForm) w r).1 = w := by
  show (RequestForm.from' default w r).1.toCommon.w = w
  unfold RequestForm.from'
  by_cases h : r.formErr = .nil <;> simp [h, commonRequest_From_w]

/-- C7, as the code has it: for every request variant whose decoding succeeds, with
`0 < MAX_TRY`, when the handler returns `Success(d)` for a payload `d` for which
`json.Marshal` returns the bytes `data` and no error, dispatch returns, invokes the
handler exactly once and makes exactly two calls on the transport:
`Content-Type: application/json`, then one write of
`{"success":true,"code":0,"msg":"","data":` followed by `data` and `}`.  For `Request`,
`RequestGet` and `RequestForm` the writer is the one the dispatch was called with. -/
theorem wrapHandler_success_envelope {R : Type} [request R] (env : Env)
    (handler : Handler R Response) (w : ResponseWriter) (r : HttpRequest) (s : World)
    (req : R) (d : Payload) (data : String)
    (hmax : 0 < env.MAX_TRY)
    (hdecode : request.from' (request.zero : R) w r = (req, .nil))
    (hret : handler req s.invoked = .ok (Success d))
    (hser : d.marshal = .ok (data, .nil)) :
    (wrapHandler env handler w r s).1 = .ok () ∧
    (wrapHandler env handler w r s).2.invoked = s.invoked + 1 ∧
    (wrapHandler env handler w r s).2.calls
      = s.calls ++
        [⟨request.Res req, .setHeader "Content-Type" "application/json"⟩,
         ⟨request.Res req, .write ("\x7b\"success\":true,\"code\":0,\"msg\":\"\",\"data\":"
            ++ data ++ "\x7d")⟩] ∧
    (∀ w' r', request.Res (request.from' (request.zero : Request) w' r').1 = w') ∧
    (∀ w' r', request.Res (request.from' (request.zero : RequestGet) w' r').1 = w') ∧
    (∀ w' r', request.Res (request.from' (request.zero : RequestForm) w' r').1 = w') := by
  have hbytes : jsonMarshalResponse (Success d)
      = .ok ("\x7b\"success\":true,\"code\":0,\"msg\":\"\",\"data\":" ++ data ++ "\x7d",
          .nil) := by
    rw [jsonMarshalResponse_of_data (Success d) data hser, responseObject_Success]
  obtain ⟨hr, hi, hc⟩ := wrapHandler_after_transients env handler w r s req 0 (Success d) _
    hdecode (by simpa using hmax) (fun i hi => absurd hi (Nat.not_lt_zero i))
    (by simpa using hret) hbytes
  exact ⟨hr, hi, hc, Request_from_Res, RequestGet_from_Res, RequestForm_from_Res⟩

/-- The greeting scenario: one invocation and the success envelope on the wire. -/
theorem wrapHandler_success_envelope_witness :
    (0 : Int) < sampleEnv.MAX_TRY ∧
    request.from' (request.zero : Request) sampleW sampleR = (sampleReq, .nil) ∧
    helloPayload.marshal = .ok ("\x7b\"message\":\"Hello, imchuncai.\"\x7d", .nil) ∧
    (wrapHandler sampleEnv helloHandler sampleW sampleR sampleS).2.invoked = 1 ∧
    (wrapHandler sampleEnv helloHandler sampleW sampleR sampleS).2.calls
      = [⟨sampleW, .setHeader "Content-Type" "application/json"⟩,
         ⟨sampleW, .write
            "\x7b\"success\":true,\"code\":0,\"msg\":\"\",\"data\":\x7b\"message\":\"Hello, imchuncai.\"\x7d\x7d"⟩] :=
  have h := wrapHandler_success_envelope sampleEnv helloHandler sampleW sampleR sampleS
    sampleReq helloPayload "\x7b\"message\":\"Hello, imchuncai.\"\x7d"
    (by decide) (by decide) rfl rfl
  ⟨by decide, by decide, rfl, h.2.1, h.2.2.1.trans (by decide)⟩

/-- C7, counterexample: with three attempts and a decoded `Request`, a handler that
returns `Success(ch)` for a channel `ch` is invoked once and no body is written: the
only call on the transport sets the content type. -/
theorem success_of_channel_writes_no_body :
    (0 : Int) < sampleEnv.MAX_TRY ∧
    request.from' (request.zero : Request) sampleW sampleR = (sampleReq, .nil) ∧
    chanHandler sampleReq sampleS.invoked = .ok (Success chanPayload) ∧
    (wrapHandler sampleEnv chanHandler sampleW sampleR sampleS).2.invoked = 1 ∧
    (wrapHandler sampleEnv chanHandler sampleW sampleR sampleS).2.calls
      = [⟨sampleW, .setHeader "Content-Type" "application/json"⟩] ∧
    writtenChunks (wrapHandler sampleEnv chanHandler sampleW sampleR sampleS).2.calls
      = [] := by
  refine ⟨by decide, by decide, rfl, by decide, by decide, by decide⟩

/-- C8: for every request whose decoding step returns an error, and every `MAX_TRY`,
the function returned by `wrapHandler` does not invoke the handler, calls `WriteHeader`
exactly once, with 500, and writes no body.  `Request.from` returns an error exactly
when reading the body fails, `RequestForm.from` exactly when `ParseMultipartForm`
fails, and `RequestGet.from` never. -/
theorem wrapHandler_decode_failure {R RES : Type} [request R] [response RES] (env : Env)
    (handler : Handler R RES) (w : ResponseWriter) (r : HttpRequest) (s : World)
    (herr : (request.from' (request.zero : R) w r).2 ≠ .nil) :
    (wrapHandler env handler w r s).2.invoked = s.invoked ∧
    (wrapHandler env handler w r s).2.calls = s.calls ++ [⟨w, .writeHeader 500⟩] ∧
    writtenChunks (wrapHandler env handler w r s).2.calls = writtenChunks s.calls ∧
    (∀ w' r', (request.from' (request.zero : Request) w' r').2 ≠ .nil ↔ r'.bodyErr ≠ .nil) ∧
    (∀ w' r', (request.from' (request.zero : RequestForm) w' r').2 ≠ .nil
        ↔ r'.formErr ≠ .nil) ∧
    (∀ w' r', (request.from' (request.zero : RequestGet) w' r').2 = .nil) ∧
    (wrapHandler env handler w r s).1 = .ok () := by
  have hrun : wrapHandler env handler w r s
      = (.ok (), Log (s.call w (.writeHeader 500)) .ERROR
          (.wrapError "parse request failed" (request.from' (request.zero : R) w r).2)) := by
    unfold wrapHandler
    simp [herr, StatusInternalServerError, WriteHeader_of_valid s w 500 (by decide)]
  refine ⟨by rw [hrun]; rfl, by rw [hrun]; rfl, ?_, ?_, ?_, fun _ _ => rfl, by rw [hrun]⟩
  · rw [hrun]
    simp [writtenChunks_append, writtenChunks]
  · intro w' r'
    show (Request.from' default w' r').2 ≠ .nil ↔ _
    unfold Request.from'
    by_cases h : r'.bodyErr = .nil <;> simp [h]
  · intro w' r'
    show (RequestForm.from' default w' r').2 ≠ .nil ↔ _
    unfold RequestForm.from'
    by_cases h : r'.formErr = .nil <;> simp [h]

/-- A multipart form that cannot be parsed: no invocation, status 500. -/
theorem wrapHandler_decode_failure_witness :
    (request.from' (request.zero : RequestForm) sampleW brokenFormR).2 ≠ .nil ∧
    (wrapHandler sampleEnv (fun (_ : RequestForm) _ => .ok (Success .null))
        sampleW brokenFormR sampleS).2.invoked = sampleS.invoked ∧
    (wrapHandler sampleEnv (fun (_ : RequestForm) _ => .ok (Success .null))
        sampleW brokenFormR sampleS).2.calls
      = sampleS.calls ++ [⟨sampleW, .writeHeader 500⟩] :=
  have h := wrapHandler_decode_failure sampleEnv
    (fun (_ : RequestForm) _ => (.ok (Success .null) : Except GoValue Response))
    sampleW brokenFormR sampleS (by decide)
  ⟨by decide, h.1, h.2.1⟩

/-- The first piece of a split is what stands before the first separator. -/
theorem splitChars_headD (sep : Char) (host rest : List Char) (h : sep ∉ host) :
    ∀ acc : List Char,
      (splitChars sep (host ++ sep :: rest) acc).headD "" = String.mk (acc.reverse ++ host) := by
  induction host with
  | nil => intro acc; simp [splitChars]
  | cons c cs ih =>
    intro acc
    have hc : c ≠ sep := fun e => h (by simp [e])
    have hcs : sep ∉ cs := fun e => h (by simp [e])
    have e := ih hcs (c :: acc)
    simp only [List.cons_append, splitChars, if_neg hc]
    refine Eq.trans e ?_
    simp

/-- For a `RemoteAddr` of the form `host:port` whose host holds no colon, `IP()` after
`commonRequest.From` is the host. -/
theorem commonRequest_From_IP_of_host_port (c : commonRequest) (w : ResponseWriter)
    (r : HttpRequest) (host port : String)
    (hr : r.RemoteAddr = host ++ ":" ++ port) (hh : ':' ∉ host.data) :
    (c.From w r).IP = host := by
  have hne : r.RemoteAddr ≠ "" := by
    rw [hr]
    intro e
    have := congrArg String.data e
    simp [String.data_append] at this
  have hd : r.RemoteAddr.data = host.data ++ ':' :: port.data := by
    rw [hr]; simp [String.data_append]
  have e := splitChars_headD ':' host.data port.data hh []
  simp only [commonRequest.From, ne_eq, hne, not_false_eq_true, if_true, commonRequest.IP,
    stringsSplit, hd]
  refine Eq.trans e ?_
  simp
/-- C10: for a peer with an IPv6 address, reported by the transport as `[::1]:8080`,
`IP()` after `commonRequest.From` is `[`, not the host `::1`: the address is cut at its
first colon.  `Req()` and `Res()` return the `r` and `w` passed in, the IP is empty for
an empty `RemoteAddr`, and for `192.0.2.1:4711` it is `192.0.2.1`. -/
theorem commonRequest_From_IP_of_ipv6 :
    ((default : commonRequest).From sampleW sampleR6).IP = "[" ∧
    ((default : commonRequest).From sampleW sampleR6).IP ≠ "::1" ∧
    ((default : commonRequest).From sampleW sampleR).IP = "192.0.2.1" ∧
    (∀ (c : commonRequest) (w : ResponseWriter) (r : HttpRequest),
      (c.From w r).Res = w ∧ (c.From w r).Req = r) ∧
    (∀ (w : ResponseWriter) (r : HttpRequest),
      ((default : commonRequest).From w { r with RemoteAddr := "" }).IP = "") := by
  refine ⟨by decide, by decide, by decide,
    fun c w r => ⟨commonRequest_From_w c w r, commonRequest_From_r c w r⟩, ?_⟩
  intro w r
  simp [commonRequest.From, commonRequest.IP]
  rfl

/-- Only nil is classified as no failure. -/
theorem classifySpec_noFailure (x : GoValue) (h : classifySpec x = .noFailure) :
    x = .nil := by
  cases x with
  | nil => rfl
  | pqError code =>
    cases hb : isTransientCode code <;> simp [classifySpec, hb] at h
  | pqErrorNil => simp [classifySpec] at h
  | errorWithCode c o => simp [classifySpec] at h
  | errorString m => simp [classifySpec] at h
  | wrapError m i => simp [classifySpec] at h
  | string str => simp [classifySpec] at h
  | other d => simp [classifySpec] at h

/-- What the classifier does with a recovered panic value: it panics and leaves the
world, or asks for a retry without a call, or writes one status code. -/
theorem doRecover_cases (x : GoValue) (hx : x ≠ .nil) (w : ResponseWriter) (s : World) :
    (x.classifierReturns = false ∧ (doRecover x w s).2 = s ∧
        ∃ p, (doRecover x w s).1 = .error p) ∨
    (x.classifierReturns = true ∧ (doRecover x w s).1 = .ok true ∧
        (doRecover x w s).2.calls = s.calls ∧ (doRecover x w s).2.invoked = s.invoked) ∨
    (x.classifierReturns = true ∧ (doRecover x w s).1 = .ok false ∧
        (doRecover x w s).2.invoked = s.invoked ∧
        ∃ c, (doRecover x w s).2.calls = s.calls ++ [⟨w, .writeHeader c⟩]) := by
  cases h : x.classifierReturns with
  | false =>
    obtain ⟨h1, h2⟩ := doRecover_of_panics x w s h
    exact Or.inl ⟨rfl, h1, h2⟩
  | true =>
    obtain ⟨h1, h2, h3⟩ := doRecover_of_returns x w s h
    cases hcl : classifySpec x with
    | noFailure => exact absurd (classifySpec_noFailure x hcl) hx
    | retry =>
      rw [hcl] at h1 h2
      exact Or.inr (Or.inl ⟨rfl, h1, by simpa [Outcome.writes] using h2, h3⟩)
    | terminal c =>
      rw [hcl] at h1 h2
      exact Or.inr (Or.inr ⟨rfl, h1, h3, c, by simpa [Outcome.writes] using h2⟩)

/-- The end of an attempt that hands a panic value to the classifier, after calls `pre`
that hold no response write: a retry without a response write, or no retry and one
response write unless the classifier itself panics. -/
theorem recover_attempt (v : GoValue) (w : ResponseWriter) (s s2 : World) (pre : List Call)
    (hcalls : s2.calls = s.calls ++ pre) (hinv : s2.invoked = s.invoked + 1)
    (hpre : responseWrites pre = 0) :
    ∃ d, (doRecover (recoverOf (Except.error v : Except GoValue Unit)) w s2).2.calls
        = s.calls ++ d ∧
      (doRecover (recoverOf (Except.error v : Except GoValue Unit)) w s2).2.invoked
        = s.invoked + 1 ∧
      (((doRecover (recoverOf (Except.error v : Except GoValue Unit)) w s2).1 = .ok true ∧
          responseWrites d = 0 ∧
          (!(recoverOf (Except.error v : Except GoValue Unit)).classifierReturns) = false) ∨
        ((doRecover (recoverOf (Except.error v : Except GoValue Unit)) w s2).1 ≠ .ok true ∧
          responseWrites d =
            if (!(recoverOf (Except.error v : Except GoValue Unit)).classifierReturns) = true
            then 0 else 1)) := by
  rcases doRecover_cases _ (recoverOf_error_ne_nil v) w s2 with
    ⟨hcr, hw, p, hp⟩ | ⟨hcr, hret, hc, hi⟩ | ⟨hcr, hret, hi, c, hc⟩
  · refine ⟨pre, by rw [hw, hcalls], by rw [hw, hinv], Or.inr ⟨?_, ?_⟩⟩
    · rw [hp]; intro e; cases e
    · simp [hcr, hpre]
  · refine ⟨pre, by rw [hc, hcalls], by rw [hi, hinv], Or.inl ⟨hret, hpre, by simp [hcr]⟩⟩
  · refine ⟨pre ++ [⟨w, .writeHeader c⟩], by rw [hc, hcalls]; simp, by rw [hi, hinv],
      Or.inr ⟨?_, ?_⟩⟩
    · rw [hret]; intro e; cases e
    · have h1 : responseWrites [(⟨w, .writeHeader c⟩ : Call)] = 1 := by
        simp [responseWrites, Op.isResponseWrite]
      rw [responseWrites_append, hpre, h1]
      simp [hcr]

/-- One attempt of an envelope handler: a retry without a response write, or no retry
and one response write unless the attempt ends silently. -/
theorem handle_response_attempt {R : Type} [request R] (env : Env)
    (handler : Handler R Response) (req : R) (s : World) :
    ∃ d, (handle env handler req s).2.calls = s.calls ++ d ∧
      (handle env handler req s).2.invoked = s.invoked + 1 ∧
      (((handle env handler req s).1 = .ok true ∧ responseWrites d = 0 ∧
          endsSilently (handler req s.invoked) = false) ∨
        ((handle env handler req s).1 ≠ .ok true ∧
          responseWrites d = if endsSilently (handler req s.invoked) = true then 0 else 1)) := by
  cases hh : handler req s.invoked with
  | error v =>
    rw [handle_of_panic env handler req s v hh]
    simpa [endsSilently] using
      recover_attempt v (request.Res req) s { s with invoked := s.invoked + 1 } [] (by simp)
        rfl rfl
  | ok res =>
    rcases hm : jsonMarshalResponse res with p | ⟨bytes, err⟩
    · rw [handle_of_encoder_panic env handler req s res p _ hh
        (Response_do_of_panic env res _ _ _ p hm)]
      simpa [endsSilently, hm] using
        recover_attempt p (request.Res req) s
          ({ s with invoked := s.invoked + 1 }.call (request.Res req)
            (.setHeader "Content-Type" "application/json"))
          [⟨request.Res req, .setHeader "Content-Type" "application/json"⟩] rfl rfl rfl
    · by_cases he : err = .nil
      · subst he
        obtain ⟨e', hdo⟩ := Response_do_of_bytes env res (request.Res req) (request.Req req)
          { s with invoked := s.invoked + 1 } bytes hm
        rw [handle_of_ok env handler req s res e' _ hh hdo]
        refine ⟨[⟨request.Res req, .setHeader "Content-Type" "application/json"⟩,
          ⟨request.Res req, .write bytes⟩], ?_, ?_, Or.inr ⟨?_, ?_⟩⟩
        · show (if _ then _ else _ : World).calls = _
          split <;> simp
        · show (if _ then _ else _ : World).invoked = _
          split <;> simp
        · intro e; cases e
        · simp [endsSilently, hm, responseWrites, Op.isResponseWrite]
      · rw [handle_of_ok env handler req s res _ _ hh
          (Response_do_of_error env res _ _ _ bytes err hm he)]
        refine ⟨[⟨request.Res req, .setHeader "Content-Type" "application/json"⟩],
          by simp, by simp, Or.inr ⟨?_, ?_⟩⟩
        · intro e; cases e
        · simp [endsSilently, hm, he, responseWrites, Op.isResponseWrite]

/-- One attempt of a file handler: a retry without a response write, or no retry and
one response write unless the attempt ends silently. -/
theorem handle_file_attempt {R : Type} [request R] (env : Env)
    (handler : Handler R ResponseFile) (req : R) (s : World) :
    ∃ d, (handle env handler req s).2.calls = s.calls ++ d ∧
      (handle env handler req s).2.invoked = s.invoked + 1 ∧
      (((handle env handler req s).1 = .ok true ∧ responseWrites d = 0 ∧
          endsSilentlyFile (handler req s.invoked) = false) ∨
        ((handle env handler req s).1 ≠ .ok true ∧
          responseWrites d
            = if endsSilentlyFile (handler req s.invoked) = true then 0 else 1)) := by
  cases hh : handler req s.invoked with
  | error v =>
    rw [handle_of_panic env handler req s v hh]
    simpa [endsSilentlyFile] using
      recover_attempt v (request.Res req) s { s with invoked := s.invoked + 1 } [] (by simp)
        rfl rfl
  | ok res =>
    have hdo : response.do' env res (request.Res req) (request.Req req)
        { s with invoked := s.invoked + 1 }
        = (.ok .nil, (({ s with invoked := s.invoked + 1 } : World).call (request.Res req)
            (.setHeader "Content-Disposition" ("attachment; filename=" ++ res.FileName))).call
            (request.Res req) (.serveContent res.FileName res.Modtime res.Content)) := rfl
    rw [handle_of_ok env handler req s res .nil _ hh hdo]
    refine ⟨[⟨request.Res req,
        .setHeader "Content-Disposition" ("attachment; filename=" ++ res.FileName)⟩,
      ⟨request.Res req, .serveContent res.FileName res.Modtime res.Content⟩],
      by simp, by simp, Or.inr ⟨?_, ?_⟩⟩
    · intro e; cases e
    · simp [endsSilentlyFile, responseWrites, Op.isResponseWrite]

/-- The retry loop makes exactly one response write, unless the last invocation ended
silently: then it makes none. -/
theorem retryLoop_response_writes {R RES : Type} [request R] [response RES] (env : Env)
    (handler : Handler R RES) (w : ResponseWriter) (req : R)
    (silent : Except GoValue RES → Bool)
    (hattempt : ∀ s : World, ∃ d, (handle env handler req s).2.calls = s.calls ++ d ∧
      (handle env handler req s).2.invoked = s.invoked + 1 ∧
      (((handle env handler req s).1 = .ok true ∧ responseWrites d = 0 ∧
          silent (handler req s.invoked) = false) ∨
        ((handle env handler req s).1 ≠ .ok true ∧
          responseWrites d = if silent (handler req s.invoked) = true then 0 else 1))) :
    ∀ (n : Nat) (s : World), ∃ delta,
      (retryLoop env handler w req n s).2.calls = s.calls ++ delta ∧
      s.invoked ≤ (retryLoop env handler w req n s).2.invoked ∧
      responseWrites delta
        = if s.invoked < (retryLoop env handler w req n s).2.invoked ∧
              silent (handler req ((retryLoop env handler w req n s).2.invoked - 1)) = true
          then 0 else 1 := by
  intro n
  induction n with
  | zero =>
    intro s
    refine ⟨[⟨w, .write busyBody⟩], by simp [retryLoop, Fprint], by simp [retryLoop, Fprint],
      ?_⟩
    simp [retryLoop, Fprint, responseWrites, Op.isResponseWrite]
  | succ n ih =>
    intro s
    obtain ⟨d, hc, hi, hcase⟩ := hattempt s
    rcases hres : handle env handler req s with ⟨out, s1⟩
    rw [hres] at hc hi hcase
    simp only at hc hi hcase
    rcases hcase with ⟨hretry, hd, hsil⟩ | ⟨hstop, hd⟩
    · -- retry: the attempt wrote no response, the loop goes on
      have hrun : retryLoop env handler w req (n + 1) s = retryLoop env handler w req n s1 := by
        rw [retryLoop, hres, hretry]
        simp
      obtain ⟨delta, hc', hle, hcount⟩ := ih s1
      rw [hrun]
      refine ⟨d ++ delta, by rw [hc', hc]; simp, by omega, ?_⟩
      rw [responseWrites_append, hd, hcount, Nat.zero_add]
      by_cases hlt : s1.invoked < (retryLoop env handler w req n s1).2.invoked
      · have hlt' : s.invoked < (retryLoop env handler w req n s1).2.invoked := by omega
        simp [hlt, hlt']
      · have heq : (retryLoop env handler w req n s1).2.invoked = s.invoked + 1 := by omega
        simp [heq, hi, hsil]
    · -- no retry: the loop ends with this attempt
      have hrun : (retryLoop env handler w req (n + 1) s).2 = s1 := by
        rw [retryLoop, hres]
        cases out with
        | error p => rfl
        | ok b =>
          cases b with
          | true => exact absurd rfl hstop
          | false => rfl
      rw [hrun]
      refine ⟨d, hc, by omega, ?_⟩
      rw [hd, hi]
      simp

/-- C3, as the code has it: one run of the function returned by `wrapHandler`, for
every request, every `MAX_TRY` and every handler behaviour, makes at most one of the
three response writes (the encoder's write, one `WriteHeader`, the busy body).  It
makes exactly one, except when the last handler invocation ended silently: then it
makes none.  An invocation of an envelope handler ends silently when it returned a
`Response` for which `json.Marshal` returns an error, or when it ended in a panic (of
the handler or of `json.Marshal`) with a value on which `doRecover` itself panics, an
`ErrorWithCode` with a status code outside 100..999 or a nil `*pq.Error`.  An
invocation of a handler that returns `ResponseFile` ends silently only in the second
way. -/
theorem wrapHandler_response_writes {R : Type} [request R] (env : Env)
    (handler : Handler R Response) (handlerFile : Handler R ResponseFile)
    (w : ResponseWriter) (r : HttpRequest) (s : World) :
    (∃ delta, (wrapHandler env handler w r s).2.calls = s.calls ++ delta ∧
      responseWrites delta ≤ 1 ∧
      responseWrites delta
        = if s.invoked < (wrapHandler env handler w r s).2.invoked ∧
              endsSilently (handler (request.from' (request.zero : R) w r).1
                ((wrapHandler env handler w r s).2.invoked - 1)) = true
          then 0 else 1) ∧
    (∃ delta, (wrapHandler env handlerFile w r s).2.calls = s.calls ++ delta ∧
      responseWrites delta ≤ 1 ∧
      responseWrites delta
        = if s.invoked < (wrapHandler env handlerFile w r s).2.invoked ∧
              endsSilentlyFile (handlerFile (request.from' (request.zero : R) w r).1
                ((wrapHandler env handlerFile w r s).2.invoked - 1)) = true
          then 0 else 1) := by
  have hle : ∀ (n : Nat) (p : Prop) [Decidable p], n = (if p then 0 else 1) → n ≤ 1 := by
    intro n p _ h
    rw [h]
    split <;> simp
  by_cases herr : (request.from' (request.zero : R) w r).2 = .nil
  · have hrun : ∀ {RES : Type} [response RES] (h : Handler R RES),
        wrapHandler env h w r s
          = retryLoop env h w (request.from' (request.zero : R) w r).1 env.MAX_TRY.toNat s := by
      intro RES _ h
      unfold wrapHandler
      simp [herr]
    constructor
    · rw [hrun handler]
      obtain ⟨delta, hc, _, hcount⟩ := retryLoop_response_writes env handler w
        (request.from' (request.zero : R) w r).1 endsSilently
        (fun s' => handle_response_attempt env handler _ s') env.MAX_TRY.toNat s
      exact ⟨delta, hc, hle _ _ hcount, hcount⟩
    · rw [hrun handlerFile]
      obtain ⟨delta, hc, _, hcount⟩ := retryLoop_response_writes env handlerFile w
        (request.from' (request.zero : R) w r).1 endsSilentlyFile
        (fun s' => handle_file_attempt env handlerFile _ s') env.MAX_TRY.toNat s
      exact ⟨delta, hc, hle _ _ hcount, hcount⟩
  · have hrun : ∀ {RES : Type} [response RES] (h : Handler R RES),
        wrapHandler env h w r s
          = (.ok (), Log (s.call w (.writeHeader 500)) .ERROR
              (.wrapError "parse request failed"
                (request.from' (request.zero : R) w r).2)) := by
      intro RES _ h
      unfold wrapHandler
      simp [herr, StatusInternalServerError, WriteHeader_of_valid s w 500 (by decide)]
    constructor
    · rw [hrun handler]
      exact ⟨[⟨w, .writeHeader 500⟩], rfl,
        by simp [responseWrites, Op.isResponseWrite],
        by simp [responseWrites, Op.isResponseWrite]⟩
    · rw [hrun handlerFile]
      exact ⟨[⟨w, .writeHeader 500⟩], rfl,
        by simp [responseWrites, Op.isResponseWrite],
        by simp [responseWrites, Op.isResponseWrite]⟩

/-- C3, counterexample: with three attempts and a decoded `Request`, the dispatch of a
handler that returns `Success(ch)` for a channel `ch` makes none of the three response
writes. -/
theorem response_writes_of_channel_is_zero :
    (0 : Int) < sampleEnv.MAX_TRY ∧
    chanHandler sampleReq sampleS.invoked = .ok (Success chanPayload) ∧
    responseWrites (wrapHandler sampleEnv chanHandler sampleW sampleR sampleS).2.calls = 0 ∧
    responseWrites (wrapHandler sampleEnv chanHandler sampleW sampleR sampleS).2.calls
      ≠ 1 := by
  refine ⟨by decide, rfl, by decide, by decide⟩

/-- The closure `req.Write` never changes the invocation count. -/
theorem RequestSSE_Write_invoked (env : Env) (req : RequestSSE) (v : String) (s : World) :
    (req.Write env v s).2.invoked = s.invoked := by
  unfold RequestSSE.Write
  cases req.capturedW with
  | none => rfl
  | some w =>
    simp only
    cases Must (env.writeErr s.calls) with
    | error e => rfl
    | ok u =>
      simp only
      cases Must (env.flushErr (s.call w (.write v)).calls) <;> rfl

/-- With a transport that reports no error, `req.Write` makes one write and one flush
on the captured writer and returns. -/
theorem RequestSSE_Write_ok (env : Env) (req : RequestSSE) (w : ResponseWriter)
    (hw : ∀ l, env.writeErr l = .nil) (hf : ∀ l, env.flushErr l = .nil)
    (hcap : req.capturedW = some w) (v : String) (s : World) :
    req.Write env v s
      = (.ok (), { s with calls := s.calls ++ [⟨w, .write v⟩, ⟨w, .flush⟩] }) := by
  simp [RequestSSE.Write, hcap, hw, hf, Must, World.call]

/-- A streaming handler never changes the invocation count. -/
theorem SSEHandler_run_invoked {V : Type} (env : Env)
    (paramsUnpack : HttpRequest → V → V × GoValue) (req : RequestSSE) (h : SSEHandler V) :
    ∀ s : World, (h.run env paramsUnpack req s).2.invoked = s.invoked := by
  induction h with
  | ret => intro s; rfl
  | panic v => intro s; rfl
  | Write chunk next ih =>
    intro s
    have hwi := RequestSSE_Write_invoked env req chunk s
    unfold SSEHandler.run
    rcases hres : req.Write env chunk s with ⟨out, s1⟩
    rw [hres] at hwi
    cases out with
    | error e => simpa using hwi
    | ok u =>
      simp only
      rw [ih s1]
      simpa using hwi
  | Unmarshal v next ih =>
    intro s
    unfold SSEHandler.run
    cases hres : req.Unmarshal paramsUnpack v with
    | error e => rfl
    | ok v' => simpa using ih v' s

/-- With a transport that reports no error, a streaming handler ends as `outcome` says
after one write and one flush for each chunk that `passes` lists. -/
theorem SSEHandler_run_ok {V : Type} (env : Env)
    (paramsUnpack : HttpRequest → V → V × GoValue) (req : RequestSSE) (w : ResponseWriter)
    (hw : ∀ l, env.writeErr l = .nil) (hf : ∀ l, env.flushErr l = .nil)
    (hcap : req.capturedW = some w) (h : SSEHandler V) :
    ∀ s : World, h.run env paramsUnpack req s
      = (h.outcome paramsUnpack req,
          { s with calls := s.calls ++ chunkCalls w (h.passes paramsUnpack req) }) := by
  induction h with
  | ret => intro s; simp [SSEHandler.run, SSEHandler.outcome, SSEHandler.passes, chunkCalls]
  | panic v =>
    intro s; simp [SSEHandler.run, SSEHandler.outcome, SSEHandler.passes, chunkCalls]
  | Write chunk next ih =>
    intro s
    unfold SSEHandler.run
    rw [RequestSSE_Write_ok env req w hw hf hcap chunk s]
    simp only
    rw [ih]
    simp [SSEHandler.outcome, SSEHandler.passes, chunkCalls]
  | Unmarshal v next ih =>
    intro s
    unfold SSEHandler.run SSEHandler.outcome SSEHandler.passes
    cases hres : req.Unmarshal paramsUnpack v with
    | error e => simp [chunkCalls]
    | ok v' => simpa using ih v' s

theorem writtenChunks_chunkCalls (w : ResponseWriter) (chunks : List String) :
    writtenChunks (chunkCalls w chunks) = chunks := by
  induction chunks with
  | nil => rfl
  | cons c cs ih =>
    have : chunkCalls w (c :: cs) = ⟨w, .write c⟩ :: ⟨w, .flush⟩ :: chunkCalls w cs := by
      simp [chunkCalls]
    rw [this]
    simp only [writtenChunks]
    exact congrArg (c :: ·) ih

theorem writtenChunks_recoverWrites (v : GoValue) (w : ResponseWriter) :
    writtenChunks (recoverWrites v w) = [] := by
  unfold recoverWrites
  split
  · cases classifySpec v <;> rfl
  · rfl

theorem passes_writeAll {V : Type} (paramsUnpack : HttpRequest → V → V × GoValue)
    (req : RequestSSE) (chunks : List String) (ending : SSEHandler V) :
    (writeAll chunks ending).passes paramsUnpack req
      = chunks ++ ending.passes paramsUnpack req := by
  induction chunks with
  | nil => rfl
  | cons c cs ih => simp [writeAll, SSEHandler.passes] at ih ⊢; exact ih

theorem outcome_writeAll {V : Type} (paramsUnpack : HttpRequest → V → V × GoValue)
    (req : RequestSSE) (chunks : List String) (ending : SSEHandler V) :
    (writeAll chunks ending).outcome paramsUnpack req = ending.outcome paramsUnpack req := by
  induction chunks with
  | nil => rfl
  | cons c cs ih => simp [writeAll, SSEHandler.outcome] at ih ⊢; exact ih


/-- The world `wrapHandlerSSE` leaves is the one the classifier leaves. -/
theorem wrapHandlerSSE_world {V : Type} (env : Env)
    (paramsUnpack : HttpRequest → V → V × GoValue) (handler : RequestSSE → SSEHandler V)
    (w : ResponseWriter) (r : HttpRequest) (s : World) :
    (wrapHandlerSSE env paramsUnpack handler w r s).2
      = (doRecover
          (recoverOf ((handler (RequestSSE.from' default w r s).1).run env paramsUnpack
            (RequestSSE.from' default w r s).1
            { (RequestSSE.from' default w r s).2 with
              invoked := (RequestSSE.from' default w r s).2.invoked + 1 }).1) w
          ((handler (RequestSSE.from' default w r s).1).run env paramsUnpack
            (RequestSSE.from' default w r s).1
            { (RequestSSE.from' default w r s).2 with
              invoked := (RequestSSE.from' default w r s).2.invoked + 1 }).2).2 := by
  unfold wrapHandlerSSE
  simp only
  split <;> simp_all

/-- What `wrapHandlerSSE` leaves behind with a transport that reports no error: the
headers, the chunk calls, then the classifier's call for the way the handler ended. -/
theorem wrapHandlerSSE_run {V : Type} (env : Env)
    (paramsUnpack : HttpRequest → V → V × GoValue) (handler : RequestSSE → SSEHandler V)
    (w : ResponseWriter) (r : HttpRequest) (s : World)
    (hw : ∀ l, env.writeErr l = .nil) (hf : ∀ l, env.flushErr l = .nil) :
    (wrapHandlerSSE env paramsUnpack handler w r s).2.calls
      = s.calls ++ (sseHeaders w
          ++ chunkCalls w ((handler (RequestSSE.from' default w r s).1).passes paramsUnpack
              (RequestSSE.from' default w r s).1)
          ++ recoverWrites (recoverOf
              ((handler (RequestSSE.from' default w r s).1).outcome paramsUnpack
                (RequestSSE.from' default w r s).1)) w) := by
  have hcap : (RequestSSE.from' default w r s).1.capturedW = some w := rfl
  rw [wrapHandlerSSE_world, SSEHandler_run_ok env paramsUnpack _ w hw hf hcap]
  simp only
  rw [doRecover_calls]
  simp [RequestSSE.from', sseHeaders, World.call]

/-- The streaming dispatch invokes the handler exactly once, whatever it does. -/
theorem wrapHandlerSSE_invoked {V : Type} (env : Env)
    (paramsUnpack : HttpRequest → V → V × GoValue) (handler : RequestSSE → SSEHandler V)
    (w : ResponseWriter) (r : HttpRequest) (s : World) :
    (wrapHandlerSSE env paramsUnpack handler w r s).2.invoked = s.invoked + 1 := by
  rw [wrapHandlerSSE_world, doRecover_invoked, SSEHandler_run_invoked]
  rfl

/-- C9: on the streaming path, with writes and flushes that succeed, the calls on the
transport are the three headers, then for each chunk the handler passes to `req.Write`,
in order, one write followed by one flush, then at most one `WriteHeader` from the
classifier; the bytes received are the concatenation of the chunks in that order.  For
every handler and every transport the handler is invoked exactly once; a handler that
panics with a transient-conflict `*pq.Error` after its chunks leaves exactly the
headers and the chunk calls. -/
theorem wrapHandlerSSE_streams_chunks {V : Type} (env : Env)
    (paramsUnpack : HttpRequest → V → V × GoValue) (handler : RequestSSE → SSEHandler V)
    (w : ResponseWriter) (r : HttpRequest) (s : World)
    (hw : ∀ l, env.writeErr l = .nil) (hf : ∀ l, env.flushErr l = .nil) :
    (wrapHandlerSSE env paramsUnpack handler w r s).2.calls
      = s.calls ++ (sseHeaders w
          ++ chunkCalls w ((handler (RequestSSE.from' default w r s).1).passes paramsUnpack
              (RequestSSE.from' default w r s).1)
          ++ recoverWrites (recoverOf
              ((handler (RequestSSE.from' default w r s).1).outcome paramsUnpack
                (RequestSSE.from' default w r s).1)) w) ∧
    writtenChunks
        ((wrapHandlerSSE env paramsUnpack handler w r s).2.calls.drop s.calls.length)
      = (handler (RequestSSE.from' default w r s).1).passes paramsUnpack
          (RequestSSE.from' default w r s).1 ∧
    bodyBytes ((wrapHandlerSSE env paramsUnpack handler w r s).2.calls.drop s.calls.length)
      = String.join ((handler (RequestSSE.from' default w r s).1).passes paramsUnpack
          (RequestSSE.from' default w r s).1) ∧
    (∀ (env' : Env) (handler' : RequestSSE → SSEHandler V),
      (wrapHandlerSSE env' paramsUnpack handler' w r s).2.invoked = s.invoked + 1) ∧
    (∀ (chunks : List String) (v : GoValue),
      writtenChunks ((wrapHandlerSSE env paramsUnpack
          (fun _ => writeAll chunks (.panic v)) w r s).2.calls.drop s.calls.length) = chunks ∧
      writtenChunks ((wrapHandlerSSE env paramsUnpack
          (fun _ => writeAll chunks .ret) w r s).2.calls.drop s.calls.length) = chunks) ∧
    (∀ chunks : List String,
      (wrapHandlerSSE env paramsUnpack
          (fun _ => writeAll chunks (.panic (.pqError "40001"))) w r s).2.calls
        = s.calls ++ (sseHeaders w ++ chunkCalls w chunks) ∧
      (wrapHandlerSSE env paramsUnpack
          (fun _ => writeAll chunks (.panic (.pqError "55P03"))) w r s).2.calls
        = s.calls ++ (sseHeaders w ++ chunkCalls w chunks)) ∧
    (∀ l, recoverWrites l w = [] ∨ ∃ code, recoverWrites l w = [⟨w, .writeHeader code⟩]) := by
  have hchunks : ∀ handler' : RequestSSE → SSEHandler V,
      writtenChunks ((wrapHandlerSSE env paramsUnpack handler' w r s).2.calls.drop
          s.calls.length)
        = (handler' (RequestSSE.from' default w r s).1).passes paramsUnpack
            (RequestSSE.from' default w r s).1 := by
    intro handler'
    rw [wrapHandlerSSE_run env paramsUnpack handler' w r s hw hf, List.drop_left]
    simp [writtenChunks_append, writtenChunks_chunkCalls, writtenChunks_recoverWrites,
      sseHeaders, writtenChunks]
  refine ⟨wrapHandlerSSE_run env paramsUnpack handler w r s hw hf, hchunks handler, ?_,
    fun env' handler' => wrapHandlerSSE_invoked env' paramsUnpack handler' w r s, ?_, ?_, ?_⟩
  · unfold bodyBytes
    rw [hchunks handler]
  · intro chunks v
    constructor
    · rw [hchunks, passes_writeAll]
      simp [SSEHandler.passes]
    · rw [hchunks, passes_writeAll]
      simp [SSEHandler.passes]
  · intro chunks
    constructor
    · rw [wrapHandlerSSE_run env paramsUnpack _ w r s hw hf, passes_writeAll, outcome_writeAll]
      simp [SSEHandler.passes, SSEHandler.outcome, recoverOf, recoverWrites,
        GoValue.classifierReturns, classifySpec, isTransientCode, Outcome.writes]
    · rw [wrapHandlerSSE_run env paramsUnpack _ w r s hw hf, passes_writeAll, outcome_writeAll]
      simp [SSEHandler.passes, SSEHandler.outcome, recoverOf, recoverWrites,
        GoValue.classifierReturns, classifySpec, isTransientCode, Outcome.writes]
  · intro l
    unfold recoverWrites
    split
    · cases classifySpec l with
      | terminal c => exact Or.inr ⟨c, rfl⟩
      | noFailure => exact Or.inl rfl
      | retry => exact Or.inl rfl
    · exact Or.inl rfl

/-- The greeting stream: headers, two flushed chunks, and their concatenation. -/
theorem wrapHandlerSSE_streams_chunks_witness :
    (∀ l, sampleEnv.writeErr l = .nil) ∧ (∀ l, sampleEnv.flushErr l = .nil) ∧
    (wrapHandlerSSE sampleEnv sampleUnpack helloStream sampleW sampleGetR sampleS).2.calls
      = sseHeaders sampleW ++
        [⟨sampleW, .write "Hello, "⟩, ⟨sampleW, .flush⟩,
         ⟨sampleW, .write "imchuncai."⟩, ⟨sampleW, .flush⟩] ∧
    bodyBytes ((wrapHandlerSSE sampleEnv sampleUnpack helloStream sampleW sampleGetR
        sampleS).2.calls.drop sampleS.calls.length) = "Hello, imchuncai." :=
  have h := wrapHandlerSSE_streams_chunks sampleEnv sampleUnpack helloStream sampleW
    sampleGetR sampleS (fun _ => rfl) (fun _ => rfl)
  ⟨fun _ => rfl, fun _ => rfl, h.1.trans (by decide), h.2.2.1.trans (by decide)⟩

end JsonHttp
